import Mathlib

/-!
# Drawn.h : axis auto-ranging and automatic styles of the Plotting classes

A shallow embedding of `src/Drawn.h`.

* `Double_t` values are exact rationals: the comparisons, the padding arithmetic
  and the constants `41.99`, `42.01`, `0.5`, `1.1` are taken at their written value.
* `Int_t` values are integers; the counters stay far below `2^31` in everything
  proved here.
* Objects handed over by pointer are values; a null pointer is `none`.  Each
  object carries the ROOT attributes the setters write, and a vector holds the
  object as it was styled by the call that pushed it (a pointer registered
  twice is two entries).
* `TH1::GetMaximum`, `TH1::GetMinimum` and the axis accessors belong to ROOT.
  The first two return a stored extremum when there is one and scan the bin
  contents otherwise; the axis accessors are fields.
* `exit(0)` inside `Abort` and an array index outside a 10-entry table (undefined
  in C++) are explicit results of an operation, see `Outcome`.
-/

namespace Drawn

/-! ## ROOT objects -/

/-- Largest finite `float`, the constant ROOT uses as start value and cut in
`TH1::GetMaximum` and `TH1::GetMinimum`. -/
def FLT_MAX : ℚ := 340282346638528859811704183484516925440

/-- Marker and line attributes of a drawable ROOT object (`TAttMarker`, `TAttLine`). -/
structure TAtt where
  MarkerStyle : Int
  MarkerColor : Int
  MarkerSize : Int
  LineStyle : Int
  LineColor : Int
  LineWidth : Int
deriving DecidableEq, Repr

/-- A one-dimensional histogram as `Drawn.h` sees it: the contents of the bins
`1 .. GetNbinsX()`, the extrema stored by `SetMaximum` / `SetMinimum` (ROOT
keeps `-1111` while none is stored), the two axis accessors, the
statistics-box flag and the drawing attributes. -/
structure TH1F where
  bins : List ℚ
  fMaximum : ℚ
  fMinimum : ℚ
  GetBinLowEdge : Int → ℚ
  GetBinWidth : Int → ℚ
  Stats : Bool
  att : TAtt

/-- Number of bins on the x axis. -/
def TH1F.GetNbinsX (h : TH1F) : Int := h.bins.length

/-- ROOT's `TH1::GetMaximum(maxval)`: a stored maximum is returned as it is;
otherwise the scan over the bins starts at `-FLT_MAX` and takes every content
that is larger than the running maximum and smaller than `maxval`. -/
def TH1F.GetMaximum (h : TH1F) (maxval : ℚ) : ℚ :=
  if h.fMaximum ≠ -1111 then h.fMaximum
  else
    h.bins.foldl (fun maximum value => if value > maximum ∧ value < maxval then value else maximum)
      (-FLT_MAX)

/-- ROOT's `TH1::GetMinimum(minval)`: a stored minimum is returned as it is;
otherwise the scan over the bins starts at `FLT_MAX` and takes every content
that is smaller than the running minimum and larger than `minval`. -/
def TH1F.GetMinimum (h : TH1F) (minval : ℚ) : ℚ :=
  if h.fMinimum ≠ -1111 then h.fMinimum
  else
    h.bins.foldl (fun minimum value => if value < minimum ∧ value > minval then value else minimum)
      FLT_MAX

/-- A function object; only its drawing attributes are touched by `Drawn.h`. -/
structure TF1 where
  att : TAtt

/-- A graph: the histogram `GetHistogram()` hands out for its axes, and the
drawing attributes. -/
structure TGraph where
  GetHistogram : TH1F
  att : TAtt

/-- A two-dimensional histogram; `Drawn.h` only stores the pointer. -/
structure TH2F where
  cells : List (List ℚ)

/-- A `TH1D` reached through a `TH1F*` after the cast `(TH1F*)h`. -/
structure TH1D where
  asTH1F : TH1F

/-- A `TH2D` reached through a `TH2F*` after the cast `(TH2F*)h`. -/
structure TH2D where
  asTH2F : TH2F

/-! ## Results of an operation -/

/-- How a member function ends: it returns with the new state, it reaches
`Abort` (message on `cerr`, then `exit(0)`; the state is the one at that
moment), or it indexes a 10-entry table outside `0 .. 9`. -/
inductive Outcome (σ : Type) where
  | ok (s : σ)
  | aborted (Message : String) (s : σ)
  | outOfBounds (index : Int)

/-- `Plotting::Abort`: write the message and leave the program. -/
def Abort {σ : Type} (Message : String) (s : σ) : Outcome σ :=
  Outcome.aborted (Message ++ " Aborting...") s

/-! ## class Plotting -/

/-- The members of `Plotting` that the modelled functions read or write. -/
structure Plotting where
  hists : List TH1F
  graphs : List TGraph
  funcs : List TF1
  DrawOption : List String
  LegendLabel : List String
  LegendLabelF : List String
  DrawOptionF : List String
  LegendLabelG : List String
  DrawOptionG : List String
  AxisRange : Fin 3 → Fin 2 → ℚ
  counter : Int

/-- Member initialiser `AxisRange[3][2] = {{42,42},{42,42},{0,2}}`. -/
def AxisRange0 : Fin 3 → Fin 2 → ℚ :=
  fun i j => if i = 2 then (if j = 0 then 0 else 2) else 42

/-- The assignment `AxisRange[i][j] = v`. -/
def assign (A : Fin 3 → Fin 2 → ℚ) (i : Fin 3) (j : Fin 2) (v : ℚ) : Fin 3 → Fin 2 → ℚ :=
  fun i' j' => if i' = i ∧ j' = j then v else A i' j'

/-- State of a freshly constructed `Plotting`. -/
def Plotting.new : Plotting :=
  { hists := [], graphs := [], funcs := [], DrawOption := [], LegendLabel := [],
    LegendLabelF := [], DrawOptionF := [], LegendLabelG := [], DrawOptionG := [],
    AxisRange := AxisRange0, counter := 0 }

/-- `Plotting::SetAxisRange`: copy the six borders into `AxisRange`. -/
def Plotting.SetAxisRange (xlow xup ylow yup zlow zup : ℚ) (p : Plotting) : Plotting :=
  let A := assign p.AxisRange 0 0 xlow
  let A := assign A 0 1 xup
  let A := assign A 1 0 ylow
  let A := assign A 1 1 yup
  let A := assign A 2 0 zlow
  let A := assign A 2 1 zup
  { p with AxisRange := A }

/-- The test `AxisRange[i][j] > 41.99 && AxisRange[i][j] < 42.01`. -/
def is42 (v : ℚ) : Prop := v > 41.99 ∧ v < 42.01

instance (v : ℚ) : Decidable (is42 v) := by unfold is42; infer_instance

/-- One pass of the loop body of `AutoSetAxisRanges` over histogram `h`,
on the pair `(max, min)`. -/
def searchStep (logy : Bool) (mm : ℚ × ℚ) (h : TH1F) : ℚ × ℚ :=
  (if h.GetMaximum FLT_MAX > mm.1 then h.GetMaximum FLT_MAX else mm.1,
   if h.GetMinimum (-FLT_MAX) < mm.2 ∧ (¬ logy = true ∨ h.GetMinimum (-FLT_MAX) > 0)
     then h.GetMinimum (-FLT_MAX) else mm.2)

/-- The pair `(max, min)` at the end of the search loop of the histogram branch:
start values from `hists.at(0)`, then one pass per registered histogram. -/
def searchMaxMin (logy : Bool) (h0 : TH1F) (hists : List TH1F) : ℚ × ℚ :=
  hists.foldl (searchStep logy)
    (h0.GetMaximum FLT_MAX, if logy then h0.GetMinimum 0 else h0.GetMinimum (-FLT_MAX))

/-- The line `max = logy ? 2*max : max+(max-min)/10`. -/
def padMax (logy : Bool) (max min : ℚ) : ℚ :=
  if logy then 2 * max else max + (max - min) / 10

/-- The line `min = logy ? 0.5*min : (max - 2*min > 0 ? (min > 0 ? 0 : 1.1*min) : min-(max-min)/8)`
of the histogram branch; `max` is the already padded maximum. -/
def padMinHist (logy : Bool) (max min : ℚ) : ℚ :=
  if logy then 0.5 * min
  else if max - 2 * min > 0 then (if min > 0 then 0 else 1.1 * min) else min - (max - min) / 8

/-- The line `min = logy ? 0.5*min : (max - 2*min > 0 ? 0 : min-(max-min)/8)`
of the graph branch; `max` is the already padded maximum. -/
def padMinGraph (logy : Bool) (max min : ℚ) : ℚ :=
  if logy then 0.5 * min
  else if max - 2 * min > 0 then 0 else min - (max - min) / 8

/-- The four guarded assignments closing both branches of `AutoSetAxisRanges`:
a border inside the window around 42 takes the estimate. -/
def useEstimates (A : Fin 3 → Fin 2 → ℚ) (min max : ℚ) (h : TH1F) : Fin 3 → Fin 2 → ℚ :=
  let A := if is42 (A 1 0) then assign A 1 0 min else A
  let A := if is42 (A 1 1) then assign A 1 1 max else A
  let A := if is42 (A 0 0) then assign A 0 0 (h.GetBinLowEdge 1) else A
  let A := if is42 (A 0 1)
    then assign A 0 1 (h.GetBinLowEdge h.GetNbinsX + h.GetBinWidth h.GetNbinsX) else A
  A

/-- `Plotting::AutoSetAxisRanges`. -/
def Plotting.AutoSetAxisRanges (logy : Bool) (p : Plotting) : Outcome Plotting :=
  match p.hists with
  | h0 :: _ =>
    let mm := searchMaxMin logy h0 p.hists
    let max := padMax logy mm.1 mm.2
    let min := padMinHist logy max mm.2
    Outcome.ok { p with AxisRange := useEstimates p.AxisRange min max h0 }
  | [] =>
    match p.graphs with
    | g0 :: _ =>
      let hAxisFromGraph := g0.GetHistogram
      let max := hAxisFromGraph.GetMaximum FLT_MAX
      let min := if logy then hAxisFromGraph.GetMinimum 0 else hAxisFromGraph.GetMinimum (-FLT_MAX)
      let max := padMax logy max min
      let min := padMinGraph logy max min
      Outcome.ok { p with AxisRange := useEstimates p.AxisRange min max hAxisFromGraph }
    | [] =>
      match p.funcs with
      | _ :: _ => Outcome.ok p
      | [] => Abort "No histogram or graph given." p

/-! ## Automatic styles -/

/-- ROOT colour constant. -/
def kBlack : Int := 1
/-- ROOT colour constant. -/
def kYellow : Int := 400
/-- ROOT colour constant. -/
def kGreen : Int := 416
/-- ROOT colour constant. -/
def kCyan : Int := 432
/-- ROOT colour constant. -/
def kBlue : Int := 600
/-- ROOT colour constant. -/
def kRed : Int := 632
/-- ROOT colour constant. -/
def kOrange : Int := 800
/-- ROOT colour constant. -/
def kSpring : Int := 820
/-- ROOT colour constant. -/
def kTeal : Int := 840
/-- ROOT colour constant. -/
def kPink : Int := 900

/-- Table `Int_t AutoStyle[10]`. -/
def AutoStyle : List Int := [20, 21, 34, 33, 27, 24, 28, 22, 23, 29]

/-- Table `Int_t AutoStyleLine[10]`. -/
def AutoStyleLine : List Int := [1, 7, 9, 2, 8, 1, 7, 9, 2, 8]

/-- Table `Int_t AutoColor[10]`. -/
def AutoColor : List Int :=
  [kBlue + 1, kRed + 1, kGreen + 2, kBlack, kOrange + 2, kCyan + 3, kTeal - 7, kPink + 2,
   kYellow + 3, kSpring + 4]

/-- The read `table[i]` of a C array; `none` when `i` is not an index of the table. -/
def at? (table : List Int) (i : Int) : Option Int :=
  if 0 ≤ i then table.get? i.toNat else none

/-- The expression `(arg == -1) ? table[counter] : arg`; the table is read only
when the argument is `-1`. -/
def autoOr (arg : Int) (table : List Int) (counter : Int) : Option Int :=
  if arg = -1 then at? table counter else some arg

/-- `TString::Contains`: the pattern occurs somewhere in the string. -/
def containsChars : List Char → List Char → Bool
  | [], pat => pat.isEmpty
  | c :: cs, pat => pat.isPrefixOf (c :: cs) || containsChars cs pat

/-- `opt.Contains(pat)`. -/
def Contains (opt pat : String) : Bool := containsChars opt.toList pat.toList

/-- The expression `(opt == "l" || opt == "c") ? opt+" hist" : opt`. -/
def histDrawOption (opt : String) : String :=
  if opt = "l" ∨ opt = "c" then opt ++ " hist" else opt

/-- The expression `(opt.Contains(pat) && style < 10) ? style : 1`. -/
def lineStyleFor (opt pat : String) (style : Int) : Int :=
  if Contains opt pat = true ∧ style < 10 then style else 1

/-- The setter calls `SetMarkerStyle`, `SetLineStyle`, `SetMarkerColor`,
`SetLineColor`, `SetMarkerSize`, `SetLineWidth` with the given values. -/
def setAtt (markerStyle lineStyle color size : Int) : TAtt :=
  { MarkerStyle := markerStyle, LineStyle := lineStyle, MarkerColor := color, LineColor := color,
    MarkerSize := size, LineWidth := size }

/-- The attribute block shared by the histogram-adding functions: marker style
from `AutoStyle`, line style from the draw option, colours from `AutoColor`.
The result is `none` when a table is read outside its ten entries. -/
def histAtt (style size color : Int) (opt : String) (counter : Int) : Option TAtt :=
  match autoOr style AutoStyle counter, autoOr color AutoColor counter with
  | some ms, some c => some (setAtt ms (lineStyleFor opt "h" style) c size)
  | _, _ => none

/-- The attribute block shared by the function-adding functions: marker style
from `AutoStyle`, line style from `AutoStyleLine`, colours from `AutoColor`. -/
def funcAtt (style size color : Int) (counter : Int) : Option TAtt :=
  match autoOr style AutoStyle counter, autoOr style AutoStyleLine counter,
        autoOr color AutoColor counter with
  | some ms, some ls, some c => some (setAtt ms ls c size)
  | _, _, _ => none

/-- The attribute block of `Plotting1D::NewGraph`. -/
def graphAtt (style size color : Int) (opt : String) (counter : Int) : Option TAtt :=
  match autoOr style AutoStyle counter, autoOr color AutoColor counter with
  | some ms, some c => some (setAtt ms (lineStyleFor opt "l" style) c size)
  | _, _ => none

/-! ## class Plotting1D -/

/-- `Plotting1D::NewHist(TH1F*, ...)`. -/
def Plotting1D.NewHist (h : Option TH1F) (label : String) (style size color : Int)
    (opt : String) (p : Plotting) : Outcome Plotting :=
  match h with
  | none => Abort "NewHist was given a Nullptr." p
  | some h =>
    match histAtt style size color opt p.counter with
    | none => Outcome.outOfBounds p.counter
    | some a =>
      Outcome.ok { p with
        hists := p.hists ++ [{ h with Stats := false, att := a }]
        LegendLabel := p.LegendLabel ++ [label]
        DrawOption := p.DrawOption ++ [histDrawOption opt]
        counter := p.counter + 1 }

/-- `Plotting1D::NewHist(TH1D*, ...)`: cast and forward. -/
def Plotting1D.NewHistD (h : Option TH1D) (label : String) (style size color : Int)
    (opt : String) (p : Plotting) : Outcome Plotting :=
  Plotting1D.NewHist (h.map TH1D.asTH1F) label style size color opt p

/-- `Plotting1D::NewFunc`. -/
def Plotting1D.NewFunc (f : Option TF1) (label : String) (style size color : Int)
    (opt : String) (p : Plotting) : Outcome Plotting :=
  match f with
  | none => Abort "NewFunc was given a Nullptr." p
  | some f =>
    match funcAtt style size color p.counter with
    | none => Outcome.outOfBounds p.counter
    | some a =>
      Outcome.ok { p with
        funcs := p.funcs ++ [{ f with att := a }]
        LegendLabelF := p.LegendLabelF ++ [label]
        DrawOptionF := p.DrawOptionF ++ [opt]
        counter := p.counter + 1 }

/-- `Plotting1D::NewGraph`. -/
def Plotting1D.NewGraph (g : Option TGraph) (label : String) (style size color : Int)
    (opt : String) (p : Plotting) : Outcome Plotting :=
  match g with
  | none => Abort "NewGraph was given a Nullptr." p
  | some g =>
    match graphAtt style size color opt p.counter with
    | none => Outcome.outOfBounds p.counter
    | some a =>
      Outcome.ok { p with
        graphs := p.graphs ++ [{ g with att := a }]
        LegendLabelG := p.LegendLabelG ++ [label]
        DrawOptionG := p.DrawOptionG ++ [opt]
        counter := p.counter + 1 }

/-! ## class Plotting2D -/

/-- ROOT palette constant, the default of `Plotting2D::NewHist`. -/
def kBird : Int := 57

/-- The members of `Plotting2D`: those of `Plotting`, the pointer `hist`, and
the palette held by the global `gStyle`. -/
structure Plotting2D extends Plotting where
  hist : Option TH2F
  gStylePalette : Int

/-- State of a freshly constructed `Plotting2D`. -/
def Plotting2D.new : Plotting2D :=
  { Plotting.new with hist := none, gStylePalette := kBird }

/-- `Plotting2D::NewHist(TH2F*, ...)`. -/
def Plotting2D.NewHist (h : Option TH2F) (opt : String) (palette : Int) (p : Plotting2D) :
    Outcome Plotting2D :=
  match h with
  | none => Abort "NewHist was given a Nullptr." p
  | some h =>
    Outcome.ok { p with
      hist := some h
      gStylePalette := palette
      DrawOption := p.DrawOption ++ [if opt = "p" then "p" else opt] }

/-- `Plotting2D::NewHist(TH2D*, ...)`: cast and forward. -/
def Plotting2D.NewHistD (h : Option TH2D) (opt : String) (palette : Int) (p : Plotting2D) :
    Outcome Plotting2D :=
  Plotting2D.NewHist (h.map TH2D.asTH2F) opt palette p

/-- `Plotting2D::NewFunc`. -/
def Plotting2D.NewFunc (f : Option TF1) (label : String) (style size color : Int)
    (opt : String) (p : Plotting2D) : Outcome Plotting2D :=
  match f with
  | none => Abort "NewFunc was given a Nullptr." p
  | some f =>
    match funcAtt style size color p.counter with
    | none => Outcome.outOfBounds p.counter
    | some a =>
      Outcome.ok { p with
        funcs := p.funcs ++ [{ f with att := a }]
        LegendLabelF := p.LegendLabelF ++ [label]
        DrawOptionF := p.DrawOptionF ++ [opt]
        counter := p.counter + 1 }

/-! ## class PlottingRatio -/

/-- The members of `PlottingRatio`: those of `Plotting`, the vectors of the
lower pad and of the pad functions, and the second counter. -/
structure PlottingRatio extends Plotting where
  ratios : List TH1F
  tfuncs : List TF1
  bfuncs : List TF1
  LegendLabelR : List String
  LegendLabelFt : List String
  LegendLabelFb : List String
  DrawOptionR : List String
  DrawOptionFt : List String
  DrawOptionFb : List String
  counterR : Int

/-- State of a freshly constructed `PlottingRatio`; `counterR` starts at one. -/
def PlottingRatio.new : PlottingRatio :=
  { Plotting.new with
    ratios := [], tfuncs := [], bfuncs := [], LegendLabelR := [], LegendLabelFt := [],
    LegendLabelFb := [], DrawOptionR := [], DrawOptionFt := [], DrawOptionFb := [],
    counterR := 1 }

/-- `PlottingRatio::NewHist(TH1F*, ...)`. -/
def PlottingRatio.NewHist (h : Option TH1F) (label : String) (style size color : Int)
    (opt : String) (p : PlottingRatio) : Outcome PlottingRatio :=
  match h with
  | none => Abort "NewHist was given a Nullptr." p
  | some h =>
    match histAtt style size color opt p.counter with
    | none => Outcome.outOfBounds p.counter
    | some a =>
      Outcome.ok { p with
        hists := p.hists ++ [{ h with Stats := false, att := a }]
        LegendLabel := p.LegendLabel ++ [label]
        DrawOption := p.DrawOption ++ [histDrawOption opt]
        counter := if style = -1 ∧ color = -1 then p.counter + 1 else p.counter }

/-- `PlottingRatio::NewHist(TH1D*, ...)`: cast and forward. -/
def PlottingRatio.NewHistD (h : Option TH1D) (label : String) (style size color : Int)
    (opt : String) (p : PlottingRatio) : Outcome PlottingRatio :=
  PlottingRatio.NewHist (h.map TH1D.asTH1F) label style size color opt p

/-- `PlottingRatio::NewRatio(TH1F*, ...)`. -/
def PlottingRatio.NewRatio (h : Option TH1F) (label : String) (style size color : Int)
    (opt : String) (p : PlottingRatio) : Outcome PlottingRatio :=
  match h with
  | none => Abort "NewHist was given a Nullptr." p
  | some h =>
    match histAtt style size color opt p.counterR with
    | none => Outcome.outOfBounds p.counterR
    | some a =>
      Outcome.ok { p with
        ratios := p.ratios ++ [{ h with Stats := false, att := a }]
        LegendLabelR := p.LegendLabelR ++ [label]
        DrawOptionR := p.DrawOptionR ++ [histDrawOption opt]
        counterR := if style = -1 ∧ color = -1 then p.counterR + 1 else p.counterR }

/-- `PlottingRatio::NewRatio(TH1D*, ...)`: cast and forward. -/
def PlottingRatio.NewRatioD (h : Option TH1D) (label : String) (style size color : Int)
    (opt : String) (p : PlottingRatio) : Outcome PlottingRatio :=
  PlottingRatio.NewRatio (h.map TH1D.asTH1F) label style size color opt p

/-- `PlottingRatio::NewTopFunc`. -/
def PlottingRatio.NewTopFunc (f : Option TF1) (label : String) (style size color : Int)
    (opt : String) (p : PlottingRatio) : Outcome PlottingRatio :=
  match f with
  | none => Abort "NewTopFunc was given a Nullptr." p
  | some f =>
    match funcAtt style size color p.counter with
    | none => Outcome.outOfBounds p.counter
    | some a =>
      Outcome.ok { p with
        tfuncs := p.tfuncs ++ [{ f with att := a }]
        LegendLabelFt := p.LegendLabelFt ++ [label]
        DrawOptionFt := p.DrawOptionFt ++ [opt]
        counter := p.counter + 1 }

/-- `PlottingRatio::NewBotFunc`. -/
def PlottingRatio.NewBotFunc (f : Option TF1) (label : String) (style size color : Int)
    (opt : String) (p : PlottingRatio) : Outcome PlottingRatio :=
  match f with
  | none => Abort "NewBotFunc was given a Nullptr." p
  | some f =>
    match funcAtt style size color p.counter with
    | none => Outcome.outOfBounds p.counter
    | some a =>
      Outcome.ok { p with
        bfuncs := p.bfuncs ++ [{ f with att := a }]
        LegendLabelFb := p.LegendLabelFb ++ [label]
        DrawOptionFb := p.DrawOptionFb ++ [opt]
        counter := p.counter + 1 }

/-! ## Sequences of calls -/

/-- Run `f` on the state of a returned operation; an exit or a bad index ends the run. -/
def Outcome.andThen {σ : Type} (o : Outcome σ) (f : σ → Outcome σ) : Outcome σ :=
  match o with
  | Outcome.ok s => f s
  | Outcome.aborted m s => Outcome.aborted m s
  | Outcome.outOfBounds i => Outcome.outOfBounds i

/-- One call of a user program on a `Plotting1D`. -/
inductive Call1D where
  | NewHist (h : Option TH1F) (label : String) (style size color : Int) (opt : String)
  | NewFunc (f : Option TF1) (label : String) (style size color : Int) (opt : String)
  | NewGraph (g : Option TGraph) (label : String) (style size color : Int) (opt : String)

/-- The member function a call stands for. -/
def Call1D.apply : Call1D → Plotting → Outcome Plotting
  | Call1D.NewHist h label style size color opt => Plotting1D.NewHist h label style size color opt
  | Call1D.NewFunc f label style size color opt => Plotting1D.NewFunc f label style size color opt
  | Call1D.NewGraph g label style size color opt => Plotting1D.NewGraph g label style size color opt

/-- The `style` argument of a call. -/
def Call1D.style : Call1D → Int
  | Call1D.NewHist _ _ style _ _ _ => style
  | Call1D.NewFunc _ _ style _ _ _ => style
  | Call1D.NewGraph _ _ style _ _ _ => style

/-- The `color` argument of a call. -/
def Call1D.color : Call1D → Int
  | Call1D.NewHist _ _ _ _ color _ => color
  | Call1D.NewFunc _ _ _ _ color _ => color
  | Call1D.NewGraph _ _ _ _ color _ => color

/-- Whether the pointer argument of a call is null. -/
def Call1D.isNull : Call1D → Bool
  | Call1D.NewHist h _ _ _ _ _ => h.isNone
  | Call1D.NewFunc f _ _ _ _ _ => f.isNone
  | Call1D.NewGraph g _ _ _ _ _ => g.isNone

/-- Attributes of the object a call has just added: the last entry of the
vector the call pushes to. -/
def Call1D.added : Call1D → Plotting → Option TAtt
  | Call1D.NewHist _ _ _ _ _ _, p => p.hists.getLast?.map TH1F.att
  | Call1D.NewFunc _ _ _ _ _ _, p => p.funcs.getLast?.map TF1.att
  | Call1D.NewGraph _ _ _ _ _ _, p => p.graphs.getLast?.map TGraph.att

/-- The calls of a program on a `Plotting1D`, one after the other. -/
def run1D : List Call1D → Plotting → Outcome Plotting
  | [], p => Outcome.ok p
  | c :: cs, p => (c.apply p).andThen (run1D cs)

/-- One call of a user program on a `PlottingRatio` that adds a histogram to
the upper or to the lower pad. -/
inductive CallRatio where
  | NewHist (h : Option TH1F) (label : String) (style size color : Int) (opt : String)
  | NewRatio (h : Option TH1F) (label : String) (style size color : Int) (opt : String)

/-- The member function a call stands for. -/
def CallRatio.apply : CallRatio → PlottingRatio → Outcome PlottingRatio
  | CallRatio.NewHist h label style size color opt =>
    PlottingRatio.NewHist h label style size color opt
  | CallRatio.NewRatio h label style size color opt =>
    PlottingRatio.NewRatio h label style size color opt

/-- The `style` argument of a call. -/
def CallRatio.style : CallRatio → Int
  | CallRatio.NewHist _ _ style _ _ _ => style
  | CallRatio.NewRatio _ _ style _ _ _ => style

/-- The `color` argument of a call. -/
def CallRatio.color : CallRatio → Int
  | CallRatio.NewHist _ _ _ _ color _ => color
  | CallRatio.NewRatio _ _ _ _ color _ => color

/-- Whether the pointer argument of a call is null. -/
def CallRatio.isNull : CallRatio → Bool
  | CallRatio.NewHist h _ _ _ _ _ => h.isNone
  | CallRatio.NewRatio h _ _ _ _ _ => h.isNone

/-- The call is a `NewHist`. -/
def CallRatio.isHist : CallRatio → Bool
  | CallRatio.NewHist _ _ _ _ _ _ => true
  | CallRatio.NewRatio _ _ _ _ _ _ => false

/-- The call is a `NewRatio`. -/
def CallRatio.isRatio : CallRatio → Bool
  | CallRatio.NewHist _ _ _ _ _ _ => false
  | CallRatio.NewRatio _ _ _ _ _ _ => true

/-- The call leaves both style and colour to the tables. -/
def CallRatio.fullyAuto (c : CallRatio) : Bool :=
  decide (c.style = -1) && decide (c.color = -1)

/-- The calls of a program on a `PlottingRatio`, one after the other. -/
def runRatio : List CallRatio → PlottingRatio → Outcome PlottingRatio
  | [], p => Outcome.ok p
  | c :: cs, p => (c.apply p).andThen (runRatio cs)

/-! ## Concrete objects used as inputs -/

/-- Attributes of an object nobody has styled yet. -/
def plainAtt : TAtt :=
  { MarkerStyle := 1, MarkerColor := 1, MarkerSize := 1, LineStyle := 1, LineColor := 1,
    LineWidth := 1 }

/-- A histogram with the given bin contents on unit-width bins starting at `0`,
without stored extrema. -/
def histOf (bins : List ℚ) : TH1F :=
  { bins := bins, fMaximum := -1111, fMinimum := -1111, GetBinLowEdge := fun i => (i : ℚ) - 1, GetBinWidth := fun _ => 1, Stats := true,
    att := plainAtt }

/-- The histogram with bins `1, 2` after `SetMinimum(-5)`. -/
def storedMinHist : TH1F :=
  { histOf [1, 2] with fMinimum := -5 }

/-- A plotting state holding the given histograms and nothing else. -/
def withHists (hs : List TH1F) : Plotting :=
  { Plotting.new with hists := hs }

/-- A plotting state holding one graph whose axis histogram is `h`. -/
def withGraph (h : TH1F) : Plotting :=
  { Plotting.new with graphs := [{ GetHistogram := h, att := plainAtt }] }

/-- A program on a `Plotting1D`: an automatic histogram, a function with style
`5`, a graph with colour `7`. -/
def threeCalls : List Call1D :=
  [Call1D.NewHist (some (histOf [1, 2])) "data" (-1) 1 (-1) "p",
   Call1D.NewFunc (some { att := plainAtt }) "fit" 5 1 (-1) "l",
   Call1D.NewGraph (some { GetHistogram := histOf [0, 0], att := plainAtt }) "points" (-1) 2 7 "p"]

/-- The call `NewHist(h)` with every other argument at its default. -/
def autoHistCall : Call1D :=
  Call1D.NewHist (some (histOf [1])) "" (-1) 1 (-1) "p"

/-- A program on a `PlottingRatio` with every argument but the pointer at its
default: two histograms, the ratio of the second to the first, a third
histogram and its ratio. -/
def ratioCalls : List CallRatio :=
  [CallRatio.NewHist (some (histOf [2, 4])) "" (-1) 1 (-1) "p",
   CallRatio.NewHist (some (histOf [1, 2])) "" (-1) 1 (-1) "p",
   CallRatio.NewRatio (some (histOf [1 / 2, 1 / 2])) "" (-1) 1 (-1) "p",
   CallRatio.NewHist (some (histOf [4, 4])) "" (-1) 1 (-1) "p",
   CallRatio.NewRatio (some (histOf [2, 1])) "" (-1) 1 (-1) "p"]

/-- Invariant of a `PlottingRatio` that has only seen fully automatic `NewHist`
and `NewRatio` calls: the counters follow the vector sizes and every stored
object carries the table entries of its position. -/
def AutoStyled (p : PlottingRatio) : Prop :=
  p.counter = p.hists.length ∧ p.counterR = (p.ratios.length : Int) + 1 ∧
  (∀ (j : Nat) (h : TH1F), p.hists.get? j = some h →
    AutoStyle.get? j = some h.att.MarkerStyle ∧ AutoColor.get? j = some h.att.MarkerColor ∧
      AutoColor.get? j = some h.att.LineColor) ∧
  (∀ (k : Nat) (r : TH1F), p.ratios.get? k = some r →
    AutoStyle.get? (k + 1) = some r.att.MarkerStyle ∧
      AutoColor.get? (k + 1) = some r.att.MarkerColor ∧
      AutoColor.get? (k + 1) = some r.att.LineColor)

/-! ## Lemmas on `AxisRange` -/

@[simp] theorem assign_apply (A : Fin 3 → Fin 2 → ℚ) (i i' : Fin 3) (j j' : Fin 2) (v : ℚ) :
    assign A i j v i' j' = if i' = i ∧ j' = j then v else A i' j' := rfl

theorem is42_42 : is42 42 := by
  unfold is42; norm_num

theorem useEstimates_ylow (A : Fin 3 → Fin 2 → ℚ) (min max : ℚ) (h : TH1F) :
    useEstimates A min max h 1 0 = if is42 (A 1 0) then min else A 1 0 := by
  unfold useEstimates
  by_cases h10 : is42 (A 1 0) <;> simp only [h10, if_true, if_false] <;>
    split_ifs <;> simp [assign_apply]

theorem useEstimates_yup (A : Fin 3 → Fin 2 → ℚ) (min max : ℚ) (h : TH1F) :
    useEstimates A min max h 1 1 = if is42 (A 1 1) then max else A 1 1 := by
  unfold useEstimates
  by_cases h10 : is42 (A 1 0) <;> by_cases h11 : is42 (A 1 1) <;>
    simp [h10, h11, assign_apply] <;> split_ifs <;> simp [assign_apply]

theorem useEstimates_xlow (A : Fin 3 → Fin 2 → ℚ) (min max : ℚ) (h : TH1F) :
    useEstimates A min max h 0 0 = if is42 (A 0 0) then h.GetBinLowEdge 1 else A 0 0 := by
  unfold useEstimates
  by_cases h10 : is42 (A 1 0) <;> by_cases h11 : is42 (A 1 1) <;> by_cases h00 : is42 (A 0 0) <;>
    simp [h10, h11, h00, assign_apply] <;> split_ifs <;> simp [assign_apply]

theorem useEstimates_xup (A : Fin 3 → Fin 2 → ℚ) (min max : ℚ) (h : TH1F) :
    useEstimates A min max h 0 1 =
      if is42 (A 0 1) then h.GetBinLowEdge h.GetNbinsX + h.GetBinWidth h.GetNbinsX else A 0 1 := by
  unfold useEstimates
  by_cases h10 : is42 (A 1 0) <;> by_cases h11 : is42 (A 1 1) <;> by_cases h00 : is42 (A 0 0) <;>
    by_cases h01 : is42 (A 0 1) <;> simp [h10, h11, h00, h01, assign_apply]

theorem useEstimates_z (A : Fin 3 → Fin 2 → ℚ) (min max : ℚ) (h : TH1F) (j : Fin 2) :
    useEstimates A min max h 2 j = A 2 j := by
  unfold useEstimates
  by_cases h10 : is42 (A 1 0) <;> by_cases h11 : is42 (A 1 1) <;> by_cases h00 : is42 (A 0 0) <;>
    by_cases h01 : is42 (A 0 1) <;> simp [h10, h11, h00, h01, assign_apply]

/-! ## Lemmas on the search loop and the padding -/

theorem searchStep_fst (logy : Bool) (mm : ℚ × ℚ) (h : TH1F) :
    (searchStep logy mm h).1 = if h.GetMaximum FLT_MAX > mm.1 then h.GetMaximum FLT_MAX else mm.1 :=
  rfl

theorem searchStep_snd (logy : Bool) (mm : ℚ × ℚ) (h : TH1F) :
    (searchStep logy mm h).2 =
      if h.GetMinimum (-FLT_MAX) < mm.2 ∧ (¬ logy = true ∨ h.GetMinimum (-FLT_MAX) > 0)
        then h.GetMinimum (-FLT_MAX) else mm.2 :=
  rfl

theorem search_max_ge_init (logy : Bool) (hs : List TH1F) (mm : ℚ × ℚ) :
    mm.1 ≤ (hs.foldl (searchStep logy) mm).1 := by
  induction hs generalizing mm with
  | nil => simp
  | cons h t ih =>
    rw [List.foldl_cons]
    refine le_trans ?_ (ih _)
    rw [searchStep_fst]
    split_ifs with hc
    · exact le_of_lt hc
    · exact le_refl _

theorem search_max_ge_mem (logy : Bool) (hs : List TH1F) (mm : ℚ × ℚ) (h : TH1F) (hmem : h ∈ hs) :
    h.GetMaximum FLT_MAX ≤ (hs.foldl (searchStep logy) mm).1 := by
  induction hs generalizing mm with
  | nil => cases hmem
  | cons a t ih =>
    rw [List.foldl_cons]
    rcases List.mem_cons.mp hmem with rfl | ht
    · refine le_trans ?_ (search_max_ge_init logy t _)
      rw [searchStep_fst]
      split_ifs with hc
      · exact le_refl _
      · exact not_lt.mp hc
    · exact ih _ ht

theorem search_min_le_init (logy : Bool) (hs : List TH1F) (mm : ℚ × ℚ) :
    (hs.foldl (searchStep logy) mm).2 ≤ mm.2 := by
  induction hs generalizing mm with
  | nil => simp
  | cons h t ih =>
    rw [List.foldl_cons]
    refine le_trans (ih _) ?_
    rw [searchStep_snd]
    split_ifs with hc
    · exact le_of_lt hc.1
    · exact le_refl _

theorem search_min_le_mem (hs : List TH1F) (mm : ℚ × ℚ) (h : TH1F) (hmem : h ∈ hs) :
    (hs.foldl (searchStep false) mm).2 ≤ h.GetMinimum (-FLT_MAX) := by
  induction hs generalizing mm with
  | nil => cases hmem
  | cons a t ih =>
    rw [List.foldl_cons]
    rcases List.mem_cons.mp hmem with rfl | ht
    · refine le_trans (search_min_le_init false t _) ?_
      rw [searchStep_snd]
      by_cases hlt : h.GetMinimum (-FLT_MAX) < mm.2
      · rw [if_pos ⟨hlt, Or.inl (by simp)⟩]
      · rw [if_neg (fun hc => hlt hc.1)]
        exact not_lt.mp hlt
    · exact ih _ ht

theorem search_min_pos (hs : List TH1F) (mm : ℚ × ℚ) (hpos : 0 < mm.2) :
    0 < (hs.foldl (searchStep true) mm).2 := by
  induction hs generalizing mm with
  | nil => simpa using hpos
  | cons h t ih =>
    rw [List.foldl_cons]
    apply ih
    rw [searchStep_snd]
    split_ifs with hc
    · rcases hc.2 with hc2 | hc2
      · exact absurd rfl hc2
      · exact hc2
    · exact hpos

theorem FLT_MAX_pos : 0 < FLT_MAX := by
  unfold FLT_MAX; norm_num

theorem scanMin_pos (bs : List ℚ) (m : ℚ) (hm : 0 < m) :
    0 < bs.foldl (fun minimum value => if value < minimum ∧ value > 0 then value else minimum) m := by
  induction bs generalizing m with
  | nil => simpa using hm
  | cons b t ih =>
    rw [List.foldl_cons]
    apply ih
    split_ifs with hc
    · exact hc.2
    · exact hm

theorem scanMin_le_start (bs : List ℚ) (m : ℚ) :
    bs.foldl (fun minimum value => if value < minimum ∧ value > 0 then value else minimum) m ≤ m := by
  induction bs generalizing m with
  | nil => simp
  | cons b t ih =>
    rw [List.foldl_cons]
    refine le_trans (ih _) ?_
    split_ifs with hc
    · exact le_of_lt hc.1
    · exact le_refl _

theorem scanMin_le_mem (bs : List ℚ) (m b : ℚ) (hb : b ∈ bs) (hpos : 0 < b) :
    bs.foldl (fun minimum value => if value < minimum ∧ value > 0 then value else minimum) m ≤ b := by
  induction bs generalizing m with
  | nil => cases hb
  | cons a t ih =>
    rw [List.foldl_cons]
    rcases List.mem_cons.mp hb with rfl | ht
    · refine le_trans (scanMin_le_start t _) ?_
      by_cases hlt : b < m
      · rw [if_pos ⟨hlt, hpos⟩]
      · rw [if_neg (fun hc => hlt hc.1)]
        exact not_lt.mp hlt
    · exact ih _ ht

/-- `GetMinimum(0.)` is strictly positive unless a minimum `≤ 0` is stored. -/
theorem GetMinimum_zero_pos (h : TH1F) (hst : h.fMinimum ≠ -1111 → 0 < h.fMinimum) :
    0 < h.GetMinimum 0 := by
  unfold TH1F.GetMinimum
  split_ifs with hc
  · exact hst hc
  · exact scanMin_pos h.bins FLT_MAX FLT_MAX_pos

/-- Without a stored minimum `GetMinimum(0.)` is at most every strictly positive bin content. -/
theorem GetMinimum_zero_le_bin (h : TH1F) (hst : h.fMinimum = -1111) (b : ℚ) (hb : b ∈ h.bins)
    (hpos : 0 < b) : h.GetMinimum 0 ≤ b := by
  unfold TH1F.GetMinimum
  rw [if_neg (fun hc => hc hst)]
  exact scanMin_le_mem h.bins FLT_MAX b hb hpos

theorem padMax_ge (max min : ℚ) (hle : min ≤ max) : max ≤ padMax false max min := by
  unfold padMax
  simp only [Bool.false_eq_true, if_false]
  linarith

theorem padMinHist_le (max min : ℚ) (hle : min ≤ max) : padMinHist false max min ≤ min := by
  unfold padMinHist
  simp only [Bool.false_eq_true, if_false]
  split_ifs with h1 h2
  · exact le_of_lt h2
  · have : min ≤ 0 := not_lt.mp h2
    norm_num
    linarith
  · linarith

theorem AutoSetAxisRanges_hists (p : Plotting) (h0 : TH1F) (rest : List TH1F)
    (hh : p.hists = h0 :: rest) (logy : Bool) :
    p.AutoSetAxisRanges logy =
      Outcome.ok { p with
        AxisRange := useEstimates p.AxisRange
          (padMinHist logy
            (padMax logy (searchMaxMin logy h0 p.hists).1 (searchMaxMin logy h0 p.hists).2)
            (searchMaxMin logy h0 p.hists).2)
          (padMax logy (searchMaxMin logy h0 p.hists).1 (searchMaxMin logy h0 p.hists).2) h0 } := by
  unfold Plotting.AutoSetAxisRanges
  rw [hh]

theorem AutoSetAxisRanges_graphs (p : Plotting) (g0 : TGraph) (rest : List TGraph)
    (hh : p.hists = []) (hg : p.graphs = g0 :: rest) (logy : Bool) :
    p.AutoSetAxisRanges logy =
      Outcome.ok { p with
        AxisRange := useEstimates p.AxisRange
          (padMinGraph logy
            (padMax logy (g0.GetHistogram.GetMaximum FLT_MAX)
              (if logy then g0.GetHistogram.GetMinimum 0 else g0.GetHistogram.GetMinimum (-FLT_MAX)))
            (if logy then g0.GetHistogram.GetMinimum 0 else g0.GetHistogram.GetMinimum (-FLT_MAX)))
          (padMax logy (g0.GetHistogram.GetMaximum FLT_MAX)
            (if logy then g0.GetHistogram.GetMinimum 0 else g0.GetHistogram.GetMinimum (-FLT_MAX)))
          g0.GetHistogram } := by
  unfold Plotting.AutoSetAxisRanges
  rw [hh, hg]

/-! ## Lemmas on the automatic styles -/

theorem at?_natCast (t : List Int) (n : Nat) : at? t (n : Int) = t.get? n := by
  unfold at?
  simp

theorem autoOr_some (arg : Int) (t : List Int) (n : Nat) (ht : n < t.length) :
    ∃ v, autoOr arg t (n : Int) = some v ∧ (arg = -1 → t.get? n = some v) ∧
      (arg ≠ -1 → v = arg) := by
  unfold autoOr
  by_cases ha : arg = -1
  · obtain ⟨v, hv⟩ : ∃ v, t.get? n = some v := ⟨t.get ⟨n, ht⟩, List.get?_eq_get ht⟩
    refine ⟨v, ?_, fun _ => hv, fun hne => absurd ha hne⟩
    rw [if_pos ha, at?_natCast, hv]
  · exact ⟨arg, by rw [if_neg ha], fun h => absurd h ha, fun _ => rfl⟩

theorem AutoStyle_length : AutoStyle.length = 10 := rfl

theorem AutoStyleLine_length : AutoStyleLine.length = 10 := rfl

theorem AutoColor_length : AutoColor.length = 10 := rfl

theorem histAtt_some (style size color : Int) (opt : String) (n : Nat) (hn : n ≤ 9) :
    ∃ a, histAtt style size color opt (n : Int) = some a ∧
      (style = -1 → AutoStyle.get? n = some a.MarkerStyle) ∧ (style ≠ -1 → a.MarkerStyle = style) ∧
      (color = -1 → AutoColor.get? n = some a.MarkerColor) ∧ (color ≠ -1 → a.MarkerColor = color) ∧
      a.LineColor = a.MarkerColor := by
  obtain ⟨ms, h1, h2, h3⟩ := autoOr_some style AutoStyle n (by rw [AutoStyle_length]; omega)
  obtain ⟨c, h4, h5, h6⟩ := autoOr_some color AutoColor n (by rw [AutoColor_length]; omega)
  exact ⟨_, by unfold histAtt; rw [h1, h4], h2, h3, h5, h6, rfl⟩

theorem graphAtt_some (style size color : Int) (opt : String) (n : Nat) (hn : n ≤ 9) :
    ∃ a, graphAtt style size color opt (n : Int) = some a ∧
      (style = -1 → AutoStyle.get? n = some a.MarkerStyle) ∧ (style ≠ -1 → a.MarkerStyle = style) ∧
      (color = -1 → AutoColor.get? n = some a.MarkerColor) ∧ (color ≠ -1 → a.MarkerColor = color) ∧
      a.LineColor = a.MarkerColor := by
  obtain ⟨ms, h1, h2, h3⟩ := autoOr_some style AutoStyle n (by rw [AutoStyle_length]; omega)
  obtain ⟨c, h4, h5, h6⟩ := autoOr_some color AutoColor n (by rw [AutoColor_length]; omega)
  exact ⟨_, by unfold graphAtt; rw [h1, h4], h2, h3, h5, h6, rfl⟩

theorem funcAtt_some (style size color : Int) (n : Nat) (hn : n ≤ 9) :
    ∃ a, funcAtt style size color (n : Int) = some a ∧
      (style = -1 → AutoStyle.get? n = some a.MarkerStyle) ∧ (style ≠ -1 → a.MarkerStyle = style) ∧
      (color = -1 → AutoColor.get? n = some a.MarkerColor) ∧ (color ≠ -1 → a.MarkerColor = color) ∧
      a.LineColor = a.MarkerColor := by
  obtain ⟨ms, h1, h2, h3⟩ := autoOr_some style AutoStyle n (by rw [AutoStyle_length]; omega)
  obtain ⟨ls, h7, _, _⟩ := autoOr_some style AutoStyleLine n (by rw [AutoStyleLine_length]; omega)
  obtain ⟨c, h4, h5, h6⟩ := autoOr_some color AutoColor n (by rw [AutoColor_length]; omega)
  exact ⟨_, by unfold funcAtt; rw [h1, h7, h4], h2, h3, h5, h6, rfl⟩

/-- A call with a non-null pointer on a state whose counter is `n ≤ 9` returns,
moves the counter to `n + 1`, and the object it adds carries entry `n` of the
tables where the argument is `-1` and the argument itself otherwise. -/
theorem Call1D_apply_ok (c : Call1D) (p : Plotting) (n : Nat) (hnn : c.isNull = false)
    (hc : p.counter = n) (hn : n ≤ 9) :
    ∃ q a, c.apply p = Outcome.ok q ∧ q.counter = (n : Int) + 1 ∧ c.added q = some a ∧
      (c.style = -1 → AutoStyle.get? n = some a.MarkerStyle) ∧
      (c.style ≠ -1 → a.MarkerStyle = c.style) ∧
      (c.color = -1 → AutoColor.get? n = some a.MarkerColor) ∧
      (c.color ≠ -1 → a.MarkerColor = c.color) ∧
      a.LineColor = a.MarkerColor := by
  cases c with
  | NewHist h label style size color opt =>
    cases h with
    | none => simp [Call1D.isNull] at hnn
    | some h =>
      obtain ⟨a, ha, hprops⟩ := histAtt_some style size color opt n hn
      simp only [Call1D.apply, Plotting1D.NewHist, hc, ha]
      exact ⟨_, a, rfl, rfl, by simp [Call1D.added], hprops⟩
  | NewFunc f label style size color opt =>
    cases f with
    | none => simp [Call1D.isNull] at hnn
    | some f =>
      obtain ⟨a, ha, hprops⟩ := funcAtt_some style size color n hn
      simp only [Call1D.apply, Plotting1D.NewFunc, hc, ha]
      exact ⟨_, a, rfl, rfl, by simp [Call1D.added], hprops⟩
  | NewGraph g label style size color opt =>
    cases g with
    | none => simp [Call1D.isNull] at hnn
    | some g =>
      obtain ⟨a, ha, hprops⟩ := graphAtt_some style size color opt n hn
      simp only [Call1D.apply, Plotting1D.NewGraph, hc, ha]
      exact ⟨_, a, rfl, rfl, by simp [Call1D.added], hprops⟩

theorem andThen_ok {σ : Type} (s : σ) (f : σ → Outcome σ) : (Outcome.ok s).andThen f = f s := rfl

theorem run1D_append (xs ys : List Call1D) (p : Plotting) :
    run1D (xs ++ ys) p = (run1D xs p).andThen (run1D ys) := by
  induction xs generalizing p with
  | nil => rfl
  | cons c t ih =>
    simp only [List.cons_append, run1D]
    cases c.apply p with
    | ok s => simp only [Outcome.andThen]; exact ih s
    | aborted m s => rfl
    | outOfBounds i => rfl

/-- A returned call on a `Plotting1D` has moved the counter by one. -/
theorem Call1D.apply_counter (c : Call1D) (p q : Plotting) (h : c.apply p = Outcome.ok q) :
    q.counter = p.counter + 1 := by
  cases c with
  | NewHist h0 label style size color opt =>
    cases h0 with
    | none => simp [Call1D.apply, Plotting1D.NewHist, Abort] at h
    | some h0 =>
      simp only [Call1D.apply, Plotting1D.NewHist] at h
      split at h
      · cases h
      · cases h; rfl
  | NewFunc f label style size color opt =>
    cases f with
    | none => simp [Call1D.apply, Plotting1D.NewFunc, Abort] at h
    | some f =>
      simp only [Call1D.apply, Plotting1D.NewFunc] at h
      split at h
      · cases h
      · cases h; rfl
  | NewGraph g label style size color opt =>
    cases g with
    | none => simp [Call1D.apply, Plotting1D.NewGraph, Abort] at h
    | some g =>
      simp only [Call1D.apply, Plotting1D.NewGraph] at h
      split at h
      · cases h
      · cases h; rfl

theorem run1D_counter (cs : List Call1D) (p q : Plotting) (h : run1D cs p = Outcome.ok q) :
    q.counter = p.counter + cs.length := by
  induction cs generalizing p with
  | nil =>
    simp only [run1D, Outcome.ok.injEq] at h
    subst h
    simp
  | cons c t ih =>
    simp only [run1D] at h
    cases hc : c.apply p with
    | ok s =>
      rw [hc, andThen_ok] at h
      rw [ih s h, Call1D.apply_counter c p s hc, List.length_cons]
      push_cast
      ring
    | aborted m s => rw [hc] at h; cases h
    | outOfBounds i => rw [hc] at h; cases h

theorem run1D_ok (cs : List Call1D) (p : Plotting) (n : Nat)
    (hnn : ∀ c ∈ cs, c.isNull = false) (hc : p.counter = n) (hn : n + cs.length ≤ 10) :
    ∃ q, run1D cs p = Outcome.ok q := by
  induction cs generalizing p n with
  | nil => exact ⟨p, rfl⟩
  | cons c t ih =>
    rw [List.length_cons] at hn
    obtain ⟨s, a, hs, hsc, _⟩ :=
      Call1D_apply_ok c p n (hnn c (List.mem_cons_self _ _)) hc (by omega)
    simp only [run1D, hs, andThen_ok]
    exact ih s (n + 1) (fun c hc => hnn c (List.mem_cons_of_mem _ hc)) (by rw [hsc]; push_cast; rfl)
      (by omega)

theorem Call1D.apply_null (c : Call1D) (p : Plotting) (hnull : c.isNull = true) :
    ∃ m, c.apply p = Outcome.aborted m p := by
  cases c with
  | NewHist h label style size color opt =>
    cases h with
    | none => exact ⟨_, rfl⟩
    | some h => simp [Call1D.isNull] at hnull
  | NewFunc f label style size color opt =>
    cases f with
    | none => exact ⟨_, rfl⟩
    | some f => simp [Call1D.isNull] at hnull
  | NewGraph g label style size color opt =>
    cases g with
    | none => exact ⟨_, rfl⟩
    | some g => simp [Call1D.isNull] at hnull

theorem Call1D.apply_in_range (c : Call1D) (p : Plotting) (n : Nat) (hc : p.counter = n)
    (hn : n ≤ 9) (k : Int) : c.apply p ≠ Outcome.outOfBounds k := by
  cases hnull : c.isNull with
  | true =>
    obtain ⟨m, hm⟩ := Call1D.apply_null c p hnull
    rw [hm]
    exact fun h => Outcome.noConfusion h
  | false =>
    obtain ⟨q, a, hq, _⟩ := Call1D_apply_ok c p n hnull hc hn
    rw [hq]
    exact fun h => Outcome.noConfusion h

theorem run1D_in_range (cs : List Call1D) (p : Plotting) (n : Nat) (hc : p.counter = n)
    (hn : n + cs.length ≤ 10) (k : Int) : run1D cs p ≠ Outcome.outOfBounds k := by
  induction cs generalizing p n with
  | nil => exact fun h => Outcome.noConfusion h
  | cons c t ih =>
    rw [List.length_cons] at hn
    simp only [run1D]
    cases hq : c.apply p with
    | ok s =>
      rw [andThen_ok]
      have hs := Call1D.apply_counter c p s hq
      exact ih s (n + 1) (by rw [hs, hc]; push_cast; rfl) (by omega)
    | aborted m s => exact fun h => Outcome.noConfusion h
    | outOfBounds i => exact absurd hq (Call1D.apply_in_range c p n hc (by omega) i)

/-! ## Lemmas on `PlottingRatio` -/

theorem histAtt_auto (size : Int) (opt : String) (n : Nat) (a : TAtt)
    (h : histAtt (-1) size (-1) opt (n : Int) = some a) :
    AutoStyle.get? n = some a.MarkerStyle ∧ AutoColor.get? n = some a.MarkerColor ∧
      AutoColor.get? n = some a.LineColor := by
  unfold histAtt autoOr at h
  simp only [if_true, at?_natCast] at h
  cases h1 : AutoStyle.get? n with
  | none => rw [h1] at h; cases h
  | some ms =>
    cases h2 : AutoColor.get? n with
    | none => rw [h1, h2] at h; cases h
    | some c =>
      rw [h1, h2] at h
      cases h
      exact ⟨rfl, rfl, rfl⟩

theorem get?_append_singleton {α : Type} (l : List α) (x y : α) (j : Nat)
    (h : (l ++ [x]).get? j = some y) : l.get? j = some y ∨ (j = l.length ∧ y = x) := by
  rcases Nat.lt_trichotomy j l.length with hlt | heq | hgt
  · left
    rw [List.get?_eq_getElem?, List.getElem?_append_left hlt] at h
    rw [List.get?_eq_getElem?]
    exact h
  · right
    subst heq
    rw [List.get?_eq_getElem?, List.getElem?_concat_length] at h
    exact ⟨rfl, (Option.some.inj h).symm⟩
  · rw [List.get?_eq_none.mpr (by simp; omega)] at h
    cases h

theorem runRatio_append (xs ys : List CallRatio) (p : PlottingRatio) :
    runRatio (xs ++ ys) p = (runRatio xs p).andThen (runRatio ys) := by
  induction xs generalizing p with
  | nil => rfl
  | cons c t ih =>
    simp only [List.cons_append, runRatio]
    cases c.apply p with
    | ok s => simp only [Outcome.andThen]; exact ih s
    | aborted m s => rfl
    | outOfBounds i => rfl

/-- What a returned `NewHist` or `NewRatio` call does to the two counters. -/
theorem CallRatio.apply_counters (c : CallRatio) (p q : PlottingRatio)
    (h : c.apply p = Outcome.ok q) :
    q.counter = p.counter + (if (c.isHist && c.fullyAuto) = true then 1 else 0) ∧
    q.counterR = p.counterR + (if (c.isRatio && c.fullyAuto) = true then 1 else 0) := by
  cases c with
  | NewHist h0 label style size color opt =>
    cases h0 with
    | none => simp [CallRatio.apply, PlottingRatio.NewHist, Abort] at h
    | some h0 =>
      simp only [CallRatio.apply, PlottingRatio.NewHist] at h
      split at h
      · cases h
      · cases h
        simp only [CallRatio.isHist, CallRatio.isRatio, CallRatio.fullyAuto, CallRatio.style,
          CallRatio.color, Bool.true_and, Bool.false_and, Bool.and_eq_true, decide_eq_true_eq]
        split_ifs <;> simp_all
  | NewRatio h0 label style size color opt =>
    cases h0 with
    | none => simp [CallRatio.apply, PlottingRatio.NewRatio, Abort] at h
    | some h0 =>
      simp only [CallRatio.apply, PlottingRatio.NewRatio] at h
      split at h
      · cases h
      · cases h
        simp only [CallRatio.isHist, CallRatio.isRatio, CallRatio.fullyAuto, CallRatio.style,
          CallRatio.color, Bool.true_and, Bool.false_and, Bool.and_eq_true, decide_eq_true_eq]
        split_ifs <;> simp_all

theorem runRatio_counters (cs : List CallRatio) (p q : PlottingRatio)
    (h : runRatio cs p = Outcome.ok q) :
    q.counter = p.counter + cs.countP (fun c => c.isHist && c.fullyAuto) ∧
    q.counterR = p.counterR + cs.countP (fun c => c.isRatio && c.fullyAuto) := by
  induction cs generalizing p with
  | nil =>
    simp only [runRatio, Outcome.ok.injEq] at h
    subst h
    simp
  | cons c t ih =>
    simp only [runRatio] at h
    cases hc : c.apply p with
    | ok s =>
      rw [hc, andThen_ok] at h
      obtain ⟨i1, i2⟩ := ih s h
      obtain ⟨s1, s2⟩ := CallRatio.apply_counters c p s hc
      rw [i1, i2, s1, s2, List.countP_cons, List.countP_cons]
      constructor <;> split_ifs <;> push_cast <;> ring
    | aborted m s => rw [hc] at h; cases h
    | outOfBounds i => rw [hc] at h; cases h

theorem histAtt_isSome (style size color : Int) (opt : String) (c : Int)
    (h : style = -1 ∨ color = -1 → 0 ≤ c ∧ c ≤ 9) : ∃ a, histAtt style size color opt c = some a := by
  by_cases hauto : style = -1 ∨ color = -1
  · obtain ⟨h0, h9⟩ := h hauto
    obtain ⟨n, rfl⟩ := Int.eq_ofNat_of_zero_le h0
    obtain ⟨a, ha, _⟩ := histAtt_some style size color opt n (by omega)
    exact ⟨a, ha⟩
  · rw [not_or] at hauto
    refine ⟨setAtt style (lineStyleFor opt "h" style) color size, ?_⟩
    unfold histAtt autoOr
    rw [if_neg hauto.1, if_neg hauto.2]

theorem AutoStyled_new : AutoStyled PlottingRatio.new := by
  refine ⟨rfl, rfl, ?_, ?_⟩
  · intro j h hj
    simp [PlottingRatio.new, Plotting.new] at hj
  · intro k r hk
    simp [PlottingRatio.new] at hk

/-- A returned, fully automatic call keeps `AutoStyled` and adds one object to
its vector. -/
theorem CallRatio.apply_autoStyled (c : CallRatio) (p q : PlottingRatio)
    (hauto : c.style = -1 ∧ c.color = -1) (hinv : AutoStyled p) (h : c.apply p = Outcome.ok q) :
    AutoStyled q ∧ q.hists.length = p.hists.length + (if c.isHist = true then 1 else 0) ∧
      q.ratios.length = p.ratios.length + (if c.isRatio = true then 1 else 0) := by
  obtain ⟨i1, i2, i3, i4⟩ := hinv
  cases c with
  | NewHist h0 label style size color opt =>
    obtain ⟨hs, hc⟩ := hauto
    simp only [CallRatio.style, CallRatio.color] at hs hc
    subst hs hc
    cases h0 with
    | none => simp [CallRatio.apply, PlottingRatio.NewHist, Abort] at h
    | some h0 =>
      simp only [CallRatio.apply, PlottingRatio.NewHist] at h
      split at h
      · cases h
      · rename_i a ha
        cases h
        rw [i1] at ha
        have hnew := histAtt_auto size opt p.hists.length a ha
        refine ⟨⟨?_, i2, ?_, i4⟩, by simp [CallRatio.isHist], by simp [CallRatio.isRatio]⟩
        · simp [i1]
        · intro j h hj
          rcases get?_append_singleton _ _ _ _ hj with hold | ⟨rfl, rfl⟩
          · exact i3 j h hold
          · exact hnew
  | NewRatio h0 label style size color opt =>
    obtain ⟨hs, hc⟩ := hauto
    simp only [CallRatio.style, CallRatio.color] at hs hc
    subst hs hc
    cases h0 with
    | none => simp [CallRatio.apply, PlottingRatio.NewRatio, Abort] at h
    | some h0 =>
      simp only [CallRatio.apply, PlottingRatio.NewRatio] at h
      split at h
      · cases h
      · rename_i a ha
        cases h
        have hR : p.counterR = ((p.ratios.length + 1 : Nat) : Int) := by rw [i2]; push_cast; rfl
        rw [hR] at ha
        have hnew := histAtt_auto size opt (p.ratios.length + 1) a ha
        refine ⟨⟨i1, ?_, i3, ?_⟩, by simp [CallRatio.isHist], by simp [CallRatio.isRatio]⟩
        · simp [i2]
        · intro k r hk
          rcases get?_append_singleton _ _ _ _ hk with hold | ⟨rfl, rfl⟩
          · exact i4 k r hold
          · exact hnew

theorem runRatio_autoStyled (cs : List CallRatio) (p q : PlottingRatio)
    (hauto : ∀ c ∈ cs, c.style = -1 ∧ c.color = -1) (hinv : AutoStyled p)
    (h : runRatio cs p = Outcome.ok q) :
    AutoStyled q ∧ q.hists.length = p.hists.length + cs.countP CallRatio.isHist ∧
      q.ratios.length = p.ratios.length + cs.countP CallRatio.isRatio := by
  induction cs generalizing p with
  | nil =>
    simp only [runRatio, Outcome.ok.injEq] at h
    subst h
    exact ⟨hinv, by simp, by simp⟩
  | cons c t ih =>
    simp only [runRatio] at h
    cases hc : c.apply p with
    | ok s =>
      rw [hc, andThen_ok] at h
      obtain ⟨s1, s2, s3⟩ :=
        CallRatio.apply_autoStyled c p s (hauto c (List.mem_cons_self _ _)) hinv hc
      obtain ⟨t1, t2, t3⟩ := ih s (fun c hc => hauto c (List.mem_cons_of_mem _ hc)) s1 h
      refine ⟨t1, ?_, ?_⟩
      · rw [t2, s2, List.countP_cons]; omega
      · rw [t3, s3, List.countP_cons]; omega
    | aborted m s => rw [hc] at h; cases h
    | outOfBounds i => rw [hc] at h; cases h

theorem CallRatio_apply_ok (c : CallRatio) (p : PlottingRatio) (hnn : c.isNull = false)
    (hinv : AutoStyled p)
    (hh : p.hists.length + (if c.isHist = true then 1 else 0) ≤ 10)
    (hr : p.ratios.length + (if c.isRatio = true then 1 else 0) ≤ 9) :
    ∃ q, c.apply p = Outcome.ok q := by
  obtain ⟨i1, i2, _, _⟩ := hinv
  cases c with
  | NewHist h0 label style size color opt =>
    cases h0 with
    | none => simp [CallRatio.isNull] at hnn
    | some h0 =>
      simp only [CallRatio.isHist, if_true] at hh
      obtain ⟨a, ha⟩ := histAtt_isSome style size color opt p.counter
        (fun _ => by rw [i1]; omega)
      simp only [CallRatio.apply, PlottingRatio.NewHist, ha]
      exact ⟨_, rfl⟩
  | NewRatio h0 label style size color opt =>
    cases h0 with
    | none => simp [CallRatio.isNull] at hnn
    | some h0 =>
      simp only [CallRatio.isRatio, if_true] at hr
      obtain ⟨a, ha⟩ := histAtt_isSome style size color opt p.counterR
        (fun _ => by rw [i2]; omega)
      simp only [CallRatio.apply, PlottingRatio.NewRatio, ha]
      exact ⟨_, rfl⟩

theorem runRatio_ok (cs : List CallRatio) (p : PlottingRatio)
    (hauto : ∀ c ∈ cs, c.style = -1 ∧ c.color = -1) (hnn : ∀ c ∈ cs, c.isNull = false)
    (hinv : AutoStyled p) (hh : p.hists.length + cs.countP CallRatio.isHist ≤ 10)
    (hr : p.ratios.length + cs.countP CallRatio.isRatio ≤ 9) :
    ∃ q, runRatio cs p = Outcome.ok q := by
  induction cs generalizing p with
  | nil => exact ⟨p, rfl⟩
  | cons c t ih =>
    rw [List.countP_cons] at hh hr
    obtain ⟨s, hs⟩ := CallRatio_apply_ok c p (hnn c (List.mem_cons_self _ _)) hinv
      (by omega) (by omega)
    obtain ⟨s1, s2, s3⟩ :=
      CallRatio.apply_autoStyled c p s (hauto c (List.mem_cons_self _ _)) hinv hs
    simp only [runRatio, hs, andThen_ok]
    exact ih s (fun c hc => hauto c (List.mem_cons_of_mem _ hc))
      (fun c hc => hnn c (List.mem_cons_of_mem _ hc)) s1 (by rw [s2]; omega) (by rw [s3]; omega)

theorem countP_take_lt (f : CallRatio → Bool) (cs : List CallRatio) (i j : Nat) (ci : CallRatio)
    (hij : i < j) (hi : cs.get? i = some ci) (hf : f ci = true) :
    (cs.take i).countP f < (cs.take j).countP f := by
  have h1 : cs.take (i + 1) = cs.take i ++ [ci] := by
    rw [List.take_succ, ← List.get?_eq_getElem?, hi, Option.toList]
  have h2 : (cs.take (i + 1)).countP f ≤ (cs.take j).countP f :=
    List.Sublist.countP_le f (List.take_sublist_take_left cs (Nat.succ_le_of_lt hij))
  rw [h1, List.countP_append] at h2
  simp only [List.countP_cons, List.countP_nil, hf, if_true] at h2
  omega

/-! ## Claims on `AutoSetAxisRanges` -/

/-- C1: after `SetAxisRange`, `AutoSetAxisRanges` on a state with a registered
histogram returns, keeps every x/y border outside the window around 42 at the
value passed to `SetAxisRange`, keeps both z borders, and replaces every x/y
border inside the window (42 itself is inside) by the automatic estimate. -/
theorem AutoSetAxisRanges_frame (p : Plotting) (h0 : TH1F) (rest : List TH1F)
    (hh : p.hists = h0 :: rest) (logy : Bool) (xlow xup ylow yup zlow zup : ℚ) :
    ∃ q, (p.SetAxisRange xlow xup ylow yup zlow zup).AutoSetAxisRanges logy = Outcome.ok q ∧
      (¬ is42 xlow → q.AxisRange 0 0 = xlow) ∧ (¬ is42 xup → q.AxisRange 0 1 = xup) ∧
      (¬ is42 ylow → q.AxisRange 1 0 = ylow) ∧ (¬ is42 yup → q.AxisRange 1 1 = yup) ∧
      q.AxisRange 2 0 = zlow ∧ q.AxisRange 2 1 = zup ∧
      is42 42 ∧
      (is42 xlow → q.AxisRange 0 0 = h0.GetBinLowEdge 1) ∧
      (is42 xup → q.AxisRange 0 1 = h0.GetBinLowEdge h0.GetNbinsX + h0.GetBinWidth h0.GetNbinsX) ∧
      (is42 ylow → q.AxisRange 1 0 =
        padMinHist logy
          (padMax logy (searchMaxMin logy h0 p.hists).1 (searchMaxMin logy h0 p.hists).2)
          (searchMaxMin logy h0 p.hists).2) ∧
      (is42 yup → q.AxisRange 1 1 =
        padMax logy (searchMaxMin logy h0 p.hists).1 (searchMaxMin logy h0 p.hists).2) := by
  have hh2 : (p.SetAxisRange xlow xup ylow yup zlow zup).hists = h0 :: rest := hh
  rw [AutoSetAxisRanges_hists _ h0 rest hh2 logy]
  refine ⟨_, rfl, ?_⟩
  have hh3 : (p.SetAxisRange xlow xup ylow yup zlow zup).hists = p.hists := rfl
  simp only [useEstimates_xlow, useEstimates_xup, useEstimates_ylow, useEstimates_yup,
    useEstimates_z, hh3]
  simp only [Plotting.SetAxisRange, assign_apply]
  refine ⟨?_, ?_, ?_, ?_, ?_, ?_, is42_42, ?_, ?_, ?_, ?_⟩ <;> simp <;> intro hw <;> simp [hw]

/-- C1 at a concrete input: one histogram, x borders automatic, y borders given. -/
theorem AutoSetAxisRanges_frame_witness :
    (withHists [histOf [1, 2]]).hists = histOf [1, 2] :: [] ∧
    ∃ q, ((withHists [histOf [1, 2]]).SetAxisRange 42 42 0 5 0 2).AutoSetAxisRanges false
        = Outcome.ok q ∧
      (¬ is42 42 → q.AxisRange 0 0 = 42) ∧ (¬ is42 42 → q.AxisRange 0 1 = 42) ∧
      (¬ is42 0 → q.AxisRange 1 0 = 0) ∧ (¬ is42 5 → q.AxisRange 1 1 = 5) ∧
      q.AxisRange 2 0 = 0 ∧ q.AxisRange 2 1 = 2 ∧
      is42 42 ∧
      (is42 42 → q.AxisRange 0 0 = (histOf [1, 2]).GetBinLowEdge 1) ∧
      (is42 42 → q.AxisRange 0 1 = (histOf [1, 2]).GetBinLowEdge (histOf [1, 2]).GetNbinsX
        + (histOf [1, 2]).GetBinWidth (histOf [1, 2]).GetNbinsX) ∧
      (is42 0 → q.AxisRange 1 0 =
        padMinHist false
          (padMax false (searchMaxMin false (histOf [1, 2]) (withHists [histOf [1, 2]]).hists).1
            (searchMaxMin false (histOf [1, 2]) (withHists [histOf [1, 2]]).hists).2)
          (searchMaxMin false (histOf [1, 2]) (withHists [histOf [1, 2]]).hists).2) ∧
      (is42 5 → q.AxisRange 1 1 =
        padMax false (searchMaxMin false (histOf [1, 2]) (withHists [histOf [1, 2]]).hists).1
          (searchMaxMin false (histOf [1, 2]) (withHists [histOf [1, 2]]).hists).2) :=
  ⟨rfl, AutoSetAxisRanges_frame (withHists [histOf [1, 2]]) (histOf [1, 2]) [] rfl false
    42 42 0 5 0 2⟩

/-- C2: linear y axis, both y borders automatic, every registered histogram
with maximum at least its minimum: the call returns, the lower border is at
most the minimum and the upper border at least the maximum of every
registered histogram. -/
theorem AutoSetAxisRanges_hists_visible (p : Plotting) (hne : p.hists ≠ [])
    (hmm : ∀ h ∈ p.hists, h.GetMinimum (-FLT_MAX) ≤ h.GetMaximum FLT_MAX)
    (hlow : is42 (p.AxisRange 1 0)) (hup : is42 (p.AxisRange 1 1)) :
    ∃ q, p.AutoSetAxisRanges false = Outcome.ok q ∧
      ∀ h ∈ p.hists, q.AxisRange 1 0 ≤ h.GetMinimum (-FLT_MAX) ∧
        h.GetMaximum FLT_MAX ≤ q.AxisRange 1 1 := by
  obtain ⟨h0, rest, hh⟩ := List.exists_cons_of_ne_nil hne
  rw [AutoSetAxisRanges_hists p h0 rest hh false]
  refine ⟨_, rfl, ?_⟩
  intro h hmem
  simp only [useEstimates_ylow, useEstimates_yup, if_pos hlow, if_pos hup]
  have h0mem : h0 ∈ p.hists := by rw [hh]; exact List.mem_cons_self _ _
  have hinit : (searchMaxMin false h0 p.hists).2 ≤ (searchMaxMin false h0 p.hists).1 := by
    unfold searchMaxMin
    calc (p.hists.foldl (searchStep false) _).2
        ≤ h0.GetMinimum (-FLT_MAX) := search_min_le_mem _ _ h0 h0mem
      _ ≤ h0.GetMaximum FLT_MAX := hmm h0 h0mem
      _ ≤ (p.hists.foldl (searchStep false) _).1 := search_max_ge_mem _ _ _ h0 h0mem
  have hmin : (searchMaxMin false h0 p.hists).2 ≤ h.GetMinimum (-FLT_MAX) :=
    search_min_le_mem _ _ h hmem
  have hmax : h.GetMaximum FLT_MAX ≤ (searchMaxMin false h0 p.hists).1 :=
    search_max_ge_mem _ _ _ h hmem
  have hpad := padMax_ge _ _ hinit
  constructor
  · exact le_trans (padMinHist_le _ _ (le_trans hinit hpad)) hmin
  · exact le_trans hmax hpad

/-- C2 at a concrete input: two histograms, one with a negative bin, all
borders at their initial value 42. -/
theorem AutoSetAxisRanges_hists_visible_witness :
    (withHists [histOf [1, 2], histOf [-3, 7]]).hists ≠ [] ∧
    (∀ h ∈ (withHists [histOf [1, 2], histOf [-3, 7]]).hists,
      h.GetMinimum (-FLT_MAX) ≤ h.GetMaximum FLT_MAX) ∧
    is42 ((withHists [histOf [1, 2], histOf [-3, 7]]).AxisRange 1 0) ∧
    is42 ((withHists [histOf [1, 2], histOf [-3, 7]]).AxisRange 1 1) ∧
    ∃ q, (withHists [histOf [1, 2], histOf [-3, 7]]).AutoSetAxisRanges false = Outcome.ok q ∧
      ∀ h ∈ (withHists [histOf [1, 2], histOf [-3, 7]]).hists,
        q.AxisRange 1 0 ≤ h.GetMinimum (-FLT_MAX) ∧ h.GetMaximum FLT_MAX ≤ q.AxisRange 1 1 :=
  have hne : (withHists [histOf [1, 2], histOf [-3, 7]]).hists ≠ [] := by
    simp [withHists]
  have hmm : ∀ h ∈ (withHists [histOf [1, 2], histOf [-3, 7]]).hists,
      h.GetMinimum (-FLT_MAX) ≤ h.GetMaximum FLT_MAX := by
    intro h hmem
    simp only [withHists, List.mem_cons, List.mem_singleton, List.not_mem_nil, or_false] at hmem
    rcases hmem with rfl | rfl <;>
      norm_num [TH1F.GetMinimum, TH1F.GetMaximum, histOf, FLT_MAX]
  have hlow : is42 ((withHists [histOf [1, 2], histOf [-3, 7]]).AxisRange 1 0) := is42_42
  have hup : is42 ((withHists [histOf [1, 2], histOf [-3, 7]]).AxisRange 1 1) := is42_42
  ⟨hne, hmm, hlow, hup, AutoSetAxisRanges_hists_visible _ hne hmm hlow hup⟩

/-- Logarithmic y axis, lower y border automatic, first histogram without a
stored minimum `≤ 0`: the call returns, the lower border is `0.5` times the
minimum the search loop ends with, that minimum and the border are strictly
positive, and without a stored minimum the border is at most half of every
strictly positive bin content of the first histogram. -/
theorem AutoSetAxisRanges_logy_lower_estimate (p : Plotting) (h0 : TH1F) (rest : List TH1F)
    (hh : p.hists = h0 :: rest) (hst : h0.fMinimum ≠ -1111 → 0 < h0.fMinimum)
    (hlow : is42 (p.AxisRange 1 0)) :
    ∃ q, p.AutoSetAxisRanges true = Outcome.ok q ∧
      q.AxisRange 1 0 = 0.5 * (searchMaxMin true h0 p.hists).2 ∧
      0 < (searchMaxMin true h0 p.hists).2 ∧ 0 < q.AxisRange 1 0 ∧
      (h0.fMinimum = -1111 → ∀ b ∈ h0.bins, 0 < b → q.AxisRange 1 0 ≤ 0.5 * b) := by
  rw [AutoSetAxisRanges_hists p h0 rest hh true]
  refine ⟨_, rfl, ?_⟩
  simp only [useEstimates_ylow, if_pos hlow]
  have hpos : 0 < (searchMaxMin true h0 p.hists).2 := by
    unfold searchMaxMin
    apply search_min_pos
    simpa using GetMinimum_zero_pos h0 hst
  have hval : padMinHist true
      (padMax true (searchMaxMin true h0 p.hists).1 (searchMaxMin true h0 p.hists).2)
      (searchMaxMin true h0 p.hists).2 = 0.5 * (searchMaxMin true h0 p.hists).2 := by
    unfold padMinHist
    simp only [if_true]
  rw [hval]
  refine ⟨rfl, hpos, by norm_num; exact hpos, ?_⟩
  intro hnone b hb hbpos
  have hle : (searchMaxMin true h0 p.hists).2 ≤ b := by
    unfold searchMaxMin
    refine le_trans (search_min_le_init true p.hists _) ?_
    simpa using GetMinimum_zero_le_bin h0 hnone b hb hbpos
  norm_num
  linarith

/-- C5 evaluated: one registered histogram with bins `1, 2` on which
`SetMinimum(-5)` was called, logarithmic y axis, borders at 42.
`GetMinimum(0.)` hands back the stored `-5`, the search loop ends with minimum
`-5`, and the lower y border becomes `-2.5`, which is not larger than 0. -/
theorem AutoSetAxisRanges_logy_stored_minimum :
    (∃ b ∈ storedMinHist.bins, 0 < b) ∧
    storedMinHist.GetMinimum 0 = -5 ∧
    searchMaxMin true storedMinHist (withHists [storedMinHist]).hists = (2, -5) ∧
    is42 ((withHists [storedMinHist]).AxisRange 1 0) ∧
    ∃ q, (withHists [storedMinHist]).AutoSetAxisRanges true = Outcome.ok q ∧
      q.AxisRange 1 0 = -5 / 2 ∧ ¬ 0 < q.AxisRange 1 0 := by
  have a1 : storedMinHist.GetMaximum FLT_MAX = 2 := by
    norm_num [TH1F.GetMaximum, storedMinHist, histOf, FLT_MAX]
  have a2 : storedMinHist.GetMinimum 0 = -5 := by
    norm_num [TH1F.GetMinimum, storedMinHist, histOf]
  have a3 : storedMinHist.GetMinimum (-FLT_MAX) = -5 := by
    norm_num [TH1F.GetMinimum, storedMinHist, histOf]
  have hs : searchMaxMin true storedMinHist (withHists [storedMinHist]).hists = (2, -5) := by
    simp only [searchMaxMin, withHists, List.foldl_cons, List.foldl_nil, searchStep, a1, a2, a3]
    norm_num
  have h10 : is42 ((withHists [storedMinHist]).AxisRange 1 0) := is42_42
  refine ⟨⟨2, by simp [storedMinHist, histOf], by norm_num⟩, a2, hs, h10, ?_⟩
  rw [AutoSetAxisRanges_hists (withHists [storedMinHist]) _ _ rfl true]
  refine ⟨_, rfl, ?_⟩
  simp only [useEstimates_ylow, if_pos h10, hs]
  norm_num [padMinHist, padMax]

/-- C3 evaluated: a single graph whose axis histogram has minimum `-1` and
maximum `1`, linear y axis, borders at 42.  The graph branch puts the lower y
border at `0`, above the minimum; the histogram branch on the same histogram
puts it at `-1.1`. -/
theorem AutoSetAxisRanges_graph_cuts_negative :
    (histOf [-1, 1]).GetMinimum (-FLT_MAX) = -1 ∧ (histOf [-1, 1]).GetMaximum FLT_MAX = 1 ∧
    (∃ q, (withGraph (histOf [-1, 1])).AutoSetAxisRanges false = Outcome.ok q ∧
      q.AxisRange 1 0 = 0 ∧ q.AxisRange 1 1 = 6 / 5 ∧
      ¬ q.AxisRange 1 0 ≤ (histOf [-1, 1]).GetMinimum (-FLT_MAX)) ∧
    (∃ q, (withHists [histOf [-1, 1]]).AutoSetAxisRanges false = Outcome.ok q ∧
      q.AxisRange 1 0 = -11 / 10) := by
  have hmin : (histOf [-1, 1]).GetMinimum (-FLT_MAX) = -1 := by
    norm_num [TH1F.GetMinimum, histOf, FLT_MAX]
  have hmax : (histOf [-1, 1]).GetMaximum FLT_MAX = 1 := by
    norm_num [TH1F.GetMaximum, histOf, FLT_MAX]
  refine ⟨hmin, hmax, ?_, ?_⟩
  · rw [AutoSetAxisRanges_graphs (withGraph (histOf [-1, 1])) _ [] rfl rfl false]
    refine ⟨_, rfl, ?_⟩
    have h10 : is42 ((withGraph (histOf [-1, 1])).AxisRange 1 0) := is42_42
    have h11 : is42 ((withGraph (histOf [-1, 1])).AxisRange 1 1) := is42_42
    simp only [useEstimates_ylow, useEstimates_yup, if_pos h10, if_pos h11, hmin, hmax]
    norm_num [padMinGraph, padMax]
  · rw [AutoSetAxisRanges_hists (withHists [histOf [-1, 1]]) _ [] rfl false]
    refine ⟨_, rfl, ?_⟩
    have h10 : is42 ((withHists [histOf [-1, 1]]).AxisRange 1 0) := is42_42
    simp only [useEstimates_ylow, if_pos h10]
    have hs : searchMaxMin false (histOf [-1, 1]) (withHists [histOf [-1, 1]]).hists = (1, -1) := by
      simp only [searchMaxMin, withHists, List.foldl_cons, List.foldl_nil, searchStep, hmin, hmax]
      norm_num
    rw [hs]
    norm_num [padMinHist, padMax]

/-- C4 evaluated: histograms with bins `5, 6` and `0, 1`, logarithmic y axis,
borders at 42.  The smallest strictly positive bin content over both
histograms is `1`, the search loop ends with minimum `5`, and the lower y
border becomes `2.5`, above the bin with content `1`. -/
theorem AutoSetAxisRanges_logy_misses_positive_bin :
    (1 : ℚ) ∈ (histOf [0, 1]).bins ∧
    (∀ h ∈ (withHists [histOf [5, 6], histOf [0, 1]]).hists, ∀ b ∈ h.bins, 0 < b → 1 ≤ b) ∧
    searchMaxMin true (histOf [5, 6]) (withHists [histOf [5, 6], histOf [0, 1]]).hists = (6, 5) ∧
    ∃ q, (withHists [histOf [5, 6], histOf [0, 1]]).AutoSetAxisRanges true = Outcome.ok q ∧
      q.AxisRange 1 0 = 5 / 2 ∧ q.AxisRange 1 1 = 12 := by
  have hs : searchMaxMin true (histOf [5, 6]) (withHists [histOf [5, 6], histOf [0, 1]]).hists
      = (6, 5) := by
    have a1 : (histOf [5, 6]).GetMaximum FLT_MAX = 6 := by
      norm_num [TH1F.GetMaximum, histOf, FLT_MAX]
    have a2 : (histOf [5, 6]).GetMinimum 0 = 5 := by
      norm_num [TH1F.GetMinimum, histOf, FLT_MAX]
    have a3 : (histOf [5, 6]).GetMinimum (-FLT_MAX) = 5 := by
      norm_num [TH1F.GetMinimum, histOf, FLT_MAX]
    have a4 : (histOf [0, 1]).GetMaximum FLT_MAX = 1 := by
      norm_num [TH1F.GetMaximum, histOf, FLT_MAX]
    have a5 : (histOf [0, 1]).GetMinimum (-FLT_MAX) = 0 := by
      norm_num [TH1F.GetMinimum, histOf, FLT_MAX]
    simp only [searchMaxMin, withHists, List.foldl_cons, List.foldl_nil, searchStep, a1, a2, a3,
      a4, a5]
    norm_num
  refine ⟨by simp [histOf], ?_, hs, ?_⟩
  · intro h hmem b hb hpos
    simp only [withHists, List.mem_cons, List.mem_singleton, List.not_mem_nil, or_false] at hmem
    rcases hmem with rfl | rfl <;>
      simp only [histOf, List.mem_cons, List.mem_singleton, List.not_mem_nil, or_false] at hb <;>
      rcases hb with rfl | rfl <;> norm_num at hpos ⊢
  · rw [AutoSetAxisRanges_hists (withHists [histOf [5, 6], histOf [0, 1]]) _ _ rfl true]
    refine ⟨_, rfl, ?_⟩
    have h10 : is42 ((withHists [histOf [5, 6], histOf [0, 1]]).AxisRange 1 0) := is42_42
    have h11 : is42 ((withHists [histOf [5, 6], histOf [0, 1]]).AxisRange 1 1) := is42_42
    simp only [useEstimates_ylow, useEstimates_yup, if_pos h10, if_pos h11, hs]
    norm_num [padMinHist, padMax]

/-! ## Claims on the automatic styles -/

/-- C6: on a fresh `Plotting1D`, at most 10 calls of `NewHist`, `NewFunc`,
`NewGraph` with non-null pointers all return and leave `counter` at the number
of calls; the object added by call `i` has marker style `AutoStyle[i]` when
its style argument is `-1` and the given style otherwise, and marker and line
colour `AutoColor[i]` when its color argument is `-1` and the given colour
otherwise. -/
theorem Plotting1D_styles_one_after_the_other (cs : List Call1D) (hlen : cs.length ≤ 10)
    (hnn : ∀ c ∈ cs, c.isNull = false) :
    (∃ q, run1D cs Plotting.new = Outcome.ok q ∧ q.counter = cs.length) ∧
    ∀ (i : Nat) (c : Call1D), cs.get? i = some c →
      ∃ q a, run1D (cs.take (i + 1)) Plotting.new = Outcome.ok q ∧ q.counter = (i : Int) + 1 ∧
        c.added q = some a ∧
        (c.style = -1 → AutoStyle.get? i = some a.MarkerStyle) ∧
        (c.style ≠ -1 → a.MarkerStyle = c.style) ∧
        (c.color = -1 → AutoColor.get? i = some a.MarkerColor ∧
          AutoColor.get? i = some a.LineColor) ∧
        (c.color ≠ -1 → a.MarkerColor = c.color ∧ a.LineColor = c.color) := by
  have h0 : Plotting.new.counter = ((0 : Nat) : Int) := rfl
  constructor
  · obtain ⟨q, hq⟩ := run1D_ok cs Plotting.new 0 hnn h0 (by omega)
    refine ⟨q, hq, ?_⟩
    rw [run1D_counter cs _ q hq, h0]
    simp
  · intro i c hi
    have hlt : i < cs.length := by
      by_contra hge
      rw [List.get?_eq_none.mpr (not_lt.mp hge)] at hi
      cases hi
    have hmem : c ∈ cs := List.get?_mem hi
    obtain ⟨qi, hqi⟩ := run1D_ok (cs.take i) Plotting.new 0
      (fun c hc => hnn c (List.mem_of_mem_take hc)) h0 (by rw [List.length_take]; omega)
    have hci : qi.counter = (i : Int) := by
      rw [run1D_counter _ _ qi hqi, h0, List.length_take, min_eq_left (le_of_lt hlt)]
      simp
    obtain ⟨q, a, hq, hqc, hadd, hs1, hs2, hc1, hc2, hl⟩ :=
      Call1D_apply_ok c qi i (hnn c hmem) hci (by omega)
    refine ⟨q, a, ?_, hqc, hadd, hs1, hs2, ?_, ?_⟩
    · rw [List.take_succ, ← List.get?_eq_getElem?, hi, Option.toList, run1D_append, hqi,
        andThen_ok]
      simp only [run1D, hq, andThen_ok]
    · intro hc
      exact ⟨hc1 hc, by rw [hl]; exact hc1 hc⟩
    · intro hc
      exact ⟨hc2 hc, by rw [hl]; exact hc2 hc⟩

/-- C6 at a concrete program of three calls. -/
theorem Plotting1D_styles_one_after_the_other_witness :
    threeCalls.length ≤ 10 ∧ (∀ c ∈ threeCalls, c.isNull = false) ∧
    (∃ q, run1D threeCalls Plotting.new = Outcome.ok q ∧ q.counter = threeCalls.length) ∧
    ∀ (i : Nat) (c : Call1D), threeCalls.get? i = some c →
      ∃ q a, run1D (threeCalls.take (i + 1)) Plotting.new = Outcome.ok q ∧
        q.counter = (i : Int) + 1 ∧ c.added q = some a ∧
        (c.style = -1 → AutoStyle.get? i = some a.MarkerStyle) ∧
        (c.style ≠ -1 → a.MarkerStyle = c.style) ∧
        (c.color = -1 → AutoColor.get? i = some a.MarkerColor ∧
          AutoColor.get? i = some a.LineColor) ∧
        (c.color ≠ -1 → a.MarkerColor = c.color ∧ a.LineColor = c.color) :=
  have hlen : threeCalls.length ≤ 10 := by decide
  have hnn : ∀ c ∈ threeCalls, c.isNull = false := by decide
  ⟨hlen, hnn, Plotting1D_styles_one_after_the_other threeCalls hlen hnn⟩

/-- C7 evaluated: after ten calls `NewHist(h)` on a fresh `Plotting1D` the
counter is 10, and the eleventh such call reads `AutoStyle[10]`, outside the
ten entries of the table. -/
theorem Plotting1D_eleventh_lookup_outside :
    (∀ c ∈ List.replicate 11 autoHistCall, c.isNull = false) ∧
    (∃ q, run1D (List.replicate 10 autoHistCall) Plotting.new = Outcome.ok q ∧ q.counter = 10 ∧
      autoHistCall.apply q = Outcome.outOfBounds 10) ∧
    run1D (List.replicate 11 autoHistCall) Plotting.new = Outcome.outOfBounds 10 := by
  refine ⟨by decide, ⟨_, rfl, rfl, rfl⟩, rfl⟩

/-- On a fresh `Plotting1D`, in a program of at most 10 calls of
`NewHist`, `NewFunc`, `NewGraph` no table is read outside its ten entries:
the run never ends on a bad index, every call that is reached finds
`0 ≤ counter ≤ 9`, and with non-null pointers every call returns. -/
theorem Plotting1D_lookups_in_range (cs : List Call1D) (hlen : cs.length ≤ 10) :
    (∀ k, run1D cs Plotting.new ≠ Outcome.outOfBounds k) ∧
    (∀ (i : Nat) (c : Call1D) (q : Plotting), cs.get? i = some c →
      run1D (cs.take i) Plotting.new = Outcome.ok q →
      0 ≤ q.counter ∧ q.counter ≤ 9 ∧ ∀ k, c.apply q ≠ Outcome.outOfBounds k) ∧
    ((∀ c ∈ cs, c.isNull = false) → ∃ q, run1D cs Plotting.new = Outcome.ok q) := by
  have h0 : Plotting.new.counter = ((0 : Nat) : Int) := rfl
  refine ⟨fun k => run1D_in_range cs Plotting.new 0 h0 (by omega) k, ?_, ?_⟩
  · intro i c q hi hq
    have hlt : i < cs.length := by
      by_contra hge
      rw [List.get?_eq_none.mpr (not_lt.mp hge)] at hi
      cases hi
    have hci : q.counter = (i : Int) := by
      rw [run1D_counter _ _ q hq, h0, List.length_take, min_eq_left (le_of_lt hlt)]
      simp
    refine ⟨by rw [hci]; exact Int.natCast_nonneg i, by rw [hci]; omega, ?_⟩
    exact fun k => Call1D.apply_in_range c q i hci (by omega) k
  · intro hnn
    exact run1D_ok cs Plotting.new 0 hnn h0 (by omega)

/-- C8 refuted: on a fresh `PlottingRatio`, `NewHist` with style `-1` and an
explicit colour takes `AutoStyle[0]` and leaves `counter` at 0, so a second
such call receives the same table entry. -/
theorem PlottingRatio_style_entry_reused :
    AutoStyle.get? 0 = some 20 ∧
    ∃ q1 q2 h1 h2,
      PlottingRatio.NewHist (some (histOf [1])) "a" (-1) 1 3 "p" PlottingRatio.new
        = Outcome.ok q1 ∧
      q1.counter = PlottingRatio.new.counter ∧
      PlottingRatio.NewHist (some (histOf [2])) "b" (-1) 1 4 "p" q1 = Outcome.ok q2 ∧
      q2.hists = [h1, h2] ∧ h1.att.MarkerStyle = 20 ∧ h2.att.MarkerStyle = 20 :=
  ⟨rfl, _, _, _, _, rfl, rfl, rfl, rfl, rfl, rfl⟩

/-- C8 amended: `NewHist` (`NewRatio`) with a non-null pointer, on a state where
the table index is in range whenever a table is read, returns and moves
`counter` (`counterR`) by one exactly when style and colour are both `-1`; the
other counter is untouched.  In a program of such calls on a fresh
`PlottingRatio`, `counter` is the number of fully automatic `NewHist` calls
and `counterR` is one plus the number of fully automatic `NewRatio` calls. -/
theorem PlottingRatio_counts_up_when_both_auto (p : PlottingRatio) (h : TH1F) (label : String)
    (style size color : Int) (opt : String)
    (hidx : style = -1 ∨ color = -1 → 0 ≤ p.counter ∧ p.counter ≤ 9)
    (hidxR : style = -1 ∨ color = -1 → 0 ≤ p.counterR ∧ p.counterR ≤ 9) :
    (∃ q, PlottingRatio.NewHist (some h) label style size color opt p = Outcome.ok q ∧
      q.counter = (if style = -1 ∧ color = -1 then p.counter + 1 else p.counter) ∧
      q.counterR = p.counterR) ∧
    (∃ q, PlottingRatio.NewRatio (some h) label style size color opt p = Outcome.ok q ∧
      q.counterR = (if style = -1 ∧ color = -1 then p.counterR + 1 else p.counterR) ∧
      q.counter = p.counter) ∧
    (∀ (cs : List CallRatio) (q : PlottingRatio),
      runRatio cs PlottingRatio.new = Outcome.ok q →
      q.counter = cs.countP (fun c => c.isHist && c.fullyAuto) ∧
      q.counterR = 1 + cs.countP (fun c => c.isRatio && c.fullyAuto)) ∧
    (∀ (cs : List CallRatio) (i j : Nat) (ci cj : CallRatio) (qi qj : PlottingRatio),
      i < j → cs.get? i = some ci → cs.get? j = some cj →
      (ci.isHist && ci.fullyAuto) = true →
      runRatio (cs.take i) PlottingRatio.new = Outcome.ok qi →
      runRatio (cs.take j) PlottingRatio.new = Outcome.ok qj →
      qi.counter < qj.counter) := by
  refine ⟨?_, ?_, ?_, ?_⟩
  · obtain ⟨a, ha⟩ := histAtt_isSome style size color opt p.counter hidx
    simp only [PlottingRatio.NewHist, ha]
    exact ⟨_, rfl, rfl, rfl⟩
  · obtain ⟨a, ha⟩ := histAtt_isSome style size color opt p.counterR hidxR
    simp only [PlottingRatio.NewRatio, ha]
    exact ⟨_, rfl, rfl, rfl⟩
  · intro cs q hq
    obtain ⟨h1, h2⟩ := runRatio_counters cs _ q hq
    have c0 : PlottingRatio.new.counter = 0 := rfl
    have c1 : PlottingRatio.new.counterR = 1 := rfl
    rw [h1, h2, c0, c1]
    simp
  · intro cs i j ci cj qi qj hij hi _ hf hqi hqj
    obtain ⟨h1, _⟩ := runRatio_counters _ _ qi hqi
    obtain ⟨h2, _⟩ := runRatio_counters _ _ qj hqj
    have c0 : PlottingRatio.new.counter = 0 := rfl
    rw [h1, h2, c0]
    have := countP_take_lt (fun c => c.isHist && c.fullyAuto) cs i j ci hij hi hf
    omega

/-- C8 amended, at a concrete call: style automatic, colour `3`, fresh state. -/
theorem PlottingRatio_counts_up_when_both_auto_witness :
    ((-1 : Int) = -1 ∨ (3 : Int) = -1 →
      0 ≤ PlottingRatio.new.counter ∧ PlottingRatio.new.counter ≤ 9) ∧
    ((-1 : Int) = -1 ∨ (3 : Int) = -1 →
      0 ≤ PlottingRatio.new.counterR ∧ PlottingRatio.new.counterR ≤ 9) ∧
    (∃ q, PlottingRatio.NewHist (some (histOf [1])) "a" (-1) 1 3 "p" PlottingRatio.new
        = Outcome.ok q ∧
      q.counter = (if (-1 : Int) = -1 ∧ (3 : Int) = -1 then PlottingRatio.new.counter + 1
        else PlottingRatio.new.counter) ∧
      q.counterR = PlottingRatio.new.counterR) ∧
    (∃ q, PlottingRatio.NewRatio (some (histOf [1])) "a" (-1) 1 3 "p" PlottingRatio.new
        = Outcome.ok q ∧
      q.counterR = (if (-1 : Int) = -1 ∧ (3 : Int) = -1 then PlottingRatio.new.counterR + 1
        else PlottingRatio.new.counterR) ∧
      q.counter = PlottingRatio.new.counter) ∧
    (∀ (cs : List CallRatio) (q : PlottingRatio),
      runRatio cs PlottingRatio.new = Outcome.ok q →
      q.counter = cs.countP (fun c => c.isHist && c.fullyAuto) ∧
      q.counterR = 1 + cs.countP (fun c => c.isRatio && c.fullyAuto)) ∧
    (∀ (cs : List CallRatio) (i j : Nat) (ci cj : CallRatio) (qi qj : PlottingRatio),
      i < j → cs.get? i = some ci → cs.get? j = some cj →
      (ci.isHist && ci.fullyAuto) = true →
      runRatio (cs.take i) PlottingRatio.new = Outcome.ok qi →
      runRatio (cs.take j) PlottingRatio.new = Outcome.ok qj →
      qi.counter < qj.counter) :=
  have hidx : (-1 : Int) = -1 ∨ (3 : Int) = -1 →
      0 ≤ PlottingRatio.new.counter ∧ PlottingRatio.new.counter ≤ 9 :=
    fun _ => by decide
  have hidxR : (-1 : Int) = -1 ∨ (3 : Int) = -1 →
      0 ≤ PlottingRatio.new.counterR ∧ PlottingRatio.new.counterR ≤ 9 :=
    fun _ => by decide
  ⟨hidx, hidxR,
    PlottingRatio_counts_up_when_both_auto PlottingRatio.new (histOf [1]) "a" (-1) 1 3 "p"
      hidx hidxR⟩

/-- C9: on a fresh `PlottingRatio` that only sees `NewHist` and `NewRatio`
calls with style and colour `-1`: with non-null pointers, at most 10
histograms and at most 9 ratios every call returns; and whenever the program
returns, ratio `k` and histogram `k + 1` (for `k + 1 ≤ 9`) carry the same
marker style, marker colour and line colour. -/
theorem PlottingRatio_ratio_matches_next_hist (cs : List CallRatio)
    (hauto : ∀ c ∈ cs, c.style = -1 ∧ c.color = -1) :
    ((∀ c ∈ cs, c.isNull = false) → cs.countP CallRatio.isHist ≤ 10 →
      cs.countP CallRatio.isRatio ≤ 9 → ∃ q, runRatio cs PlottingRatio.new = Outcome.ok q) ∧
    ∀ q, runRatio cs PlottingRatio.new = Outcome.ok q →
      q.hists.length = cs.countP CallRatio.isHist ∧
      q.ratios.length = cs.countP CallRatio.isRatio ∧
      ∀ (k : Nat) (r h : TH1F), k + 1 ≤ 9 → q.ratios.get? k = some r →
        q.hists.get? (k + 1) = some h →
        r.att.MarkerStyle = h.att.MarkerStyle ∧ r.att.MarkerColor = h.att.MarkerColor ∧
          r.att.LineColor = h.att.LineColor := by
  constructor
  · intro hnn hh hr
    exact runRatio_ok cs PlottingRatio.new hauto hnn AutoStyled_new
      (by simpa [PlottingRatio.new, Plotting.new] using hh)
      (by simpa [PlottingRatio.new] using hr)
  · intro q hq
    obtain ⟨⟨_, _, i3, i4⟩, l1, l2⟩ := runRatio_autoStyled cs _ q hauto AutoStyled_new hq
    refine ⟨by simpa [PlottingRatio.new, Plotting.new] using l1,
      by simpa [PlottingRatio.new] using l2, ?_⟩
    intro k r h _ hr hh
    obtain ⟨a1, a2, a3⟩ := i4 k r hr
    obtain ⟨b1, b2, b3⟩ := i3 (k + 1) h hh
    exact ⟨Option.some.inj (a1.symm.trans b1), Option.some.inj (a2.symm.trans b2),
      Option.some.inj (a3.symm.trans b3)⟩

/-- C9 at a concrete program: three histograms and two ratios. -/
theorem PlottingRatio_ratio_matches_next_hist_witness :
    (∀ c ∈ ratioCalls, c.style = -1 ∧ c.color = -1) ∧
    ((∀ c ∈ ratioCalls, c.isNull = false) → ratioCalls.countP CallRatio.isHist ≤ 10 →
      ratioCalls.countP CallRatio.isRatio ≤ 9 →
      ∃ q, runRatio ratioCalls PlottingRatio.new = Outcome.ok q) ∧
    ∀ q, runRatio ratioCalls PlottingRatio.new = Outcome.ok q →
      q.hists.length = ratioCalls.countP CallRatio.isHist ∧
      q.ratios.length = ratioCalls.countP CallRatio.isRatio ∧
      ∀ (k : Nat) (r h : TH1F), k + 1 ≤ 9 → q.ratios.get? k = some r →
        q.hists.get? (k + 1) = some h →
        r.att.MarkerStyle = h.att.MarkerStyle ∧ r.att.MarkerColor = h.att.MarkerColor ∧
          r.att.LineColor = h.att.LineColor :=
  have hauto : ∀ c ∈ ratioCalls, c.style = -1 ∧ c.color = -1 := by decide
  ⟨hauto, PlottingRatio_ratio_matches_next_hist ratioCalls hauto⟩

/-- C10: every `New...` function called with a null pointer ends in `Abort`
with the state it was called on, and called with a non-null pointer never
ends in `Abort`. -/
theorem null_pointer_aborts_before_any_change (label : String) (style size color : Int)
    (opt : String) (palette : Int) (p1 : Plotting) (p2 : Plotting2D) (pr : PlottingRatio) :
    (∃ m, Plotting1D.NewHist none label style size color opt p1 = Outcome.aborted m p1) ∧
    (∃ m, Plotting1D.NewHistD none label style size color opt p1 = Outcome.aborted m p1) ∧
    (∃ m, Plotting1D.NewFunc none label style size color opt p1 = Outcome.aborted m p1) ∧
    (∃ m, Plotting1D.NewGraph none label style size color opt p1 = Outcome.aborted m p1) ∧
    (∃ m, Plotting2D.NewHist none opt palette p2 = Outcome.aborted m p2) ∧
    (∃ m, Plotting2D.NewHistD none opt palette p2 = Outcome.aborted m p2) ∧
    (∃ m, Plotting2D.NewFunc none label style size color opt p2 = Outcome.aborted m p2) ∧
    (∃ m, PlottingRatio.NewHist none label style size color opt pr = Outcome.aborted m pr) ∧
    (∃ m, PlottingRatio.NewHistD none label style size color opt pr = Outcome.aborted m pr) ∧
    (∃ m, PlottingRatio.NewRatio none label style size color opt pr = Outcome.aborted m pr) ∧
    (∃ m, PlottingRatio.NewRatioD none label style size color opt pr = Outcome.aborted m pr) ∧
    (∃ m, PlottingRatio.NewTopFunc none label style size color opt pr = Outcome.aborted m pr) ∧
    (∃ m, PlottingRatio.NewBotFunc none label style size color opt pr = Outcome.aborted m pr) ∧
    (∀ (h : TH1F) m s, Plotting1D.NewHist (some h) label style size color opt p1
      ≠ Outcome.aborted m s) ∧
    (∀ (h : TH1D) m s, Plotting1D.NewHistD (some h) label style size color opt p1
      ≠ Outcome.aborted m s) ∧
    (∀ (f : TF1) m s, Plotting1D.NewFunc (some f) label style size color opt p1
      ≠ Outcome.aborted m s) ∧
    (∀ (g : TGraph) m s, Plotting1D.NewGraph (some g) label style size color opt p1
      ≠ Outcome.aborted m s) ∧
    (∀ (h : TH2F) m s, Plotting2D.NewHist (some h) opt palette p2 ≠ Outcome.aborted m s) ∧
    (∀ (h : TH2D) m s, Plotting2D.NewHistD (some h) opt palette p2 ≠ Outcome.aborted m s) ∧
    (∀ (f : TF1) m s, Plotting2D.NewFunc (some f) label style size color opt p2
      ≠ Outcome.aborted m s) ∧
    (∀ (h : TH1F) m s, PlottingRatio.NewHist (some h) label style size color opt pr
      ≠ Outcome.aborted m s) ∧
    (∀ (h : TH1D) m s, PlottingRatio.NewHistD (some h) label style size color opt pr
      ≠ Outcome.aborted m s) ∧
    (∀ (h : TH1F) m s, PlottingRatio.NewRatio (some h) label style size color opt pr
      ≠ Outcome.aborted m s) ∧
    (∀ (h : TH1D) m s, PlottingRatio.NewRatioD (some h) label style size color opt pr
      ≠ Outcome.aborted m s) ∧
    (∀ (f : TF1) m s, PlottingRatio.NewTopFunc (some f) label style size color opt pr
      ≠ Outcome.aborted m s) ∧
    (∀ (f : TF1) m s, PlottingRatio.NewBotFunc (some f) label style size color opt pr
      ≠ Outcome.aborted m s) := by
  refine ⟨⟨_, rfl⟩, ⟨_, rfl⟩, ⟨_, rfl⟩, ⟨_, rfl⟩, ⟨_, rfl⟩, ⟨_, rfl⟩, ⟨_, rfl⟩, ⟨_, rfl⟩,
    ⟨_, rfl⟩, ⟨_, rfl⟩, ⟨_, rfl⟩, ⟨_, rfl⟩, ⟨_, rfl⟩, ?_, ?_, ?_, ?_, ?_, ?_, ?_, ?_, ?_, ?_, ?_,
    ?_, ?_⟩
  · intro h m s
    simp only [Plotting1D.NewHist]
    split <;> exact fun hc => Outcome.noConfusion hc
  · intro h m s
    simp only [Plotting1D.NewHistD, Plotting1D.NewHist, Option.map]
    split <;> exact fun hc => Outcome.noConfusion hc
  · intro f m s
    simp only [Plotting1D.NewFunc]
    split <;> exact fun hc => Outcome.noConfusion hc
  · intro g m s
    simp only [Plotting1D.NewGraph]
    split <;> exact fun hc => Outcome.noConfusion hc
  · intro h m s
    simp only [Plotting2D.NewHist]
    exact fun hc => Outcome.noConfusion hc
  · intro h m s
    simp only [Plotting2D.NewHistD, Plotting2D.NewHist, Option.map]
    exact fun hc => Outcome.noConfusion hc
  · intro f m s
    simp only [Plotting2D.NewFunc]
    split <;> exact fun hc => Outcome.noConfusion hc
  · intro h m s
    simp only [PlottingRatio.NewHist]
    split <;> exact fun hc => Outcome.noConfusion hc
  · intro h m s
    simp only [PlottingRatio.NewHistD, PlottingRatio.NewHist, Option.map]
    split <;> exact fun hc => Outcome.noConfusion hc
  · intro h m s
    simp only [PlottingRatio.NewRatio]
    split <;> exact fun hc => Outcome.noConfusion hc
  · intro h m s
    simp only [PlottingRatio.NewRatioD, PlottingRatio.NewRatio, Option.map]
    split <;> exact fun hc => Outcome.noConfusion hc
  · intro f m s
    simp only [PlottingRatio.NewTopFunc]
    split <;> exact fun hc => Outcome.noConfusion hc
  · intro f m s
    simp only [PlottingRatio.NewBotFunc]
    split <;> exact fun hc => Outcome.noConfusion hc

end Drawn
